import Mathlib

/-!
# ParticularParrot timer engine — verification development

Shallow embedding of the multi-timer application's core timer engine
(the timestamp-based `TimerService` with alert acknowledgement, together
with the parts of `AudioService` and `StorageService` it depends on).

Conventions of the embedding:
- JS `number` values (timestamps, second counts, ids) are modelled as `Int`;
  `Math.floor(x / 1000)` on a possibly negative difference is `Int.fdiv _ 1000`.
- The `Map`s keyed by timer id and the localStorage runtime table are
  modelled as association lists with set/get/delete mirroring `Map.set`,
  `Map.get` and `Map.delete` (replace-in-place on an existing key,
  append on a fresh key).
- Calls on the injected collaborators (`audioService.playAlert`,
  `audioService.cancelAlert`, observer notifications) are modelled as an
  emitted list of `Effect`s, in call order.
- Each operation that reads `Date.now()` takes the current wall-clock
  time `now : Int` as an explicit argument.
- Thrown JS errors are modelled with `Except String`; in this engine every
  throw happens before any mutation, so an `error` result leaves the
  engine state unchanged.
-/

namespace ParticularParrot

/-- `repeatCount` of an alert config: the string "infinite" or a number. -/
inductive RepeatCount where
  | infinite : RepeatCount
  | finite : Int → RepeatCount
  deriving Repr, DecidableEq

/-- `IAlertConfig` from `types/index.ts`. -/
structure AlertConfig where
  enabled : Bool
  repeatCount : RepeatCount
  waitBetweenRepeat : Int
  utteranceTemplate : String
  deriving Repr, DecidableEq

/-- `ICountdownTimerState`: the countdown variant of the tagged union. -/
structure CountdownTimer where
  id : Int
  label : String
  totalSeconds : Int
  remainingSeconds : Int
  isRunning : Bool
  isFinished : Bool
  isAcknowledged : Bool
  alertConfig : AlertConfig
  deriving Repr, DecidableEq

/-- `ICountupTimerState`: the count-up variant of the tagged union. -/
structure CountupTimer where
  id : Int
  label : String
  elapsedSeconds : Int
  isRunning : Bool
  isFinished : Bool
  deriving Repr, DecidableEq

/-- `TimerState = ICountdownTimerState | ICountupTimerState`, with the
`type: "countdown" | "countup"` tag represented by the constructor. -/
inductive TimerState where
  | countdown : CountdownTimer → TimerState
  | countup : CountupTimer → TimerState
  deriving Repr, DecidableEq

/-- `ITimerRuntime`: the per-timer runtime record.  The two base fields are
optional in the TypeScript interface, hence `Option`. -/
structure TimerRuntime where
  timerId : Int
  startedAt : Int
  baseRemainingSeconds : Option Int
  baseElapsedSeconds : Option Int
  deriving Repr, DecidableEq

namespace TimerState

/-- The `id` field common to both variants. -/
def id : TimerState → Int
  | .countdown c => c.id
  | .countup c => c.id

/-- The `label` field common to both variants. -/
def label : TimerState → String
  | .countdown c => c.label
  | .countup c => c.label

/-- The `isRunning` field common to both variants. -/
def isRunning : TimerState → Bool
  | .countdown c => c.isRunning
  | .countup c => c.isRunning

/-- The `isFinished` field common to both variants. -/
def isFinished : TimerState → Bool
  | .countdown c => c.isFinished
  | .countup c => c.isFinished

/-- The object spread `{ ...timer, isRunning: b }`. -/
def withRunning : TimerState → Bool → TimerState
  | .countdown c, b => .countdown { c with isRunning := b }
  | .countup c, b => .countup { c with isRunning := b }

end TimerState

/-- `Map.set` on the timer collection, keyed by timer id: replace the entry
with the given key in place, or append when the key is fresh. -/
def mapSet : List TimerState → Int → TimerState → List TimerState
  | [], _, v => [v]
  | t :: ts, k, v => if t.id = k then v :: ts else t :: mapSet ts k v

/-- `Map.get` on the timer collection. -/
def mapGet (ts : List TimerState) (k : Int) : Option TimerState :=
  ts.find? (fun t => t.id == k)

/-- `Map.delete` on the timer collection. -/
def mapDelete (ts : List TimerState) (k : Int) : List TimerState :=
  ts.filter (fun t => t.id != k)

/-- `StorageService.saveTimerRuntime`: store the record under its
`timerId` key, replacing any previous record for that timer. -/
def rtSet : List TimerRuntime → TimerRuntime → List TimerRuntime
  | [], v => [v]
  | r :: rs, v => if r.timerId = v.timerId then v :: rs else r :: rtSet rs v

/-- `StorageService.getTimerRuntime`. -/
def rtGet (rs : List TimerRuntime) (k : Int) : Option TimerRuntime :=
  rs.find? (fun r => r.timerId == k)

/-- `StorageService.deleteTimerRuntime`. -/
def rtDelete (rs : List TimerRuntime) (k : Int) : List TimerRuntime :=
  rs.filter (fun r => r.timerId != k)

/-- `Set.add` on a set of timer ids. -/
def idInsert (l : List Int) (k : Int) : List Int :=
  if k ∈ l then l else k :: l

/-- `Set.delete` / `Map.delete` on a set of timer ids. -/
def idDelete (l : List Int) (k : Int) : List Int :=
  l.filter (fun i => i != k)

/-- The private state of a `TimerService` instance: the canonical timer
collection, the persisted runtime records, the ids with an active
`setInterval` tick schedule, the per-id already-fired marker set
`finishedTimers`, and the id counter.  The persisted timer collection is
kept identical to `timers` by `persistTimers` after every mutation, so it
is not duplicated here. -/
structure Engine where
  timers : List TimerState
  runtimes : List TimerRuntime
  intervals : List Int
  finishedTimers : List Int
  nextId : Int
  deriving Repr, DecidableEq

/-- The outward-visible commands an operation issues, in call order:
Alert Dispatcher commands and observer notifications. -/
inductive Effect where
  | playAlert : String → AlertConfig → Effect
  | cancelAlert : Effect
  | onTimerCreated : TimerState → Effect
  | onTimerUpdated : TimerState → Effect
  | onTimerDeleted : Int → Effect
  deriving Repr, DecidableEq

/-- `DEFAULT_ALERT_CONFIG` of the timer service. -/
def DEFAULT_ALERT_CONFIG : AlertConfig :=
  { enabled := true
    repeatCount := .infinite
    waitBetweenRepeat := 10
    utteranceTemplate := "\x7btimer name\x7d has completed" }

/-- Body of `getComputedTimer` after the timer lookup: project the stored
timer through its optional runtime record at wall-clock time `now`.
This is the Time Projection: a pure read-time derivation. -/
def computeTimer (timer : TimerState) (runtime : Option TimerRuntime) (now : Int) : TimerState :=
  match runtime with
  | none => timer
  | some rt =>
    if rt.startedAt = 0 then timer
    else
      let elapsedSeconds := (now - rt.startedAt).fdiv 1000
      match timer with
      | .countdown c =>
        let baseRemaining := rt.baseRemainingSeconds.getD c.remainingSeconds
        .countdown { c with remainingSeconds := max 0 (baseRemaining - elapsedSeconds) }
      | .countup c =>
        let baseElapsed := rt.baseElapsedSeconds.getD c.elapsedSeconds
        .countup { c with elapsedSeconds := baseElapsed + elapsedSeconds }

/-- `getComputedTimer`: look the timer up and project it. -/
def getComputedTimer (e : Engine) (now : Int) (id : Int) : Option TimerState :=
  (mapGet e.timers id).map (fun t => computeTimer t (rtGet e.runtimes id) now)

/-- `startInterval`: clear any existing tick schedule for the id and
install a fresh one. -/
def startInterval (e : Engine) (id : Int) : Engine :=
  { e with intervals := idInsert (idDelete e.intervals id) id }

/-- Body of `pauseTimer` after the existence check (the check throws before
any mutation): stop the interval, freeze the current projection into the
stored value, clear the runtime record by overwriting it with
`{ timerId: id, startedAt: 0 }`, persist, notify. -/
def pauseTimerCore (e : Engine) (now : Int) (id : Int) (timer : TimerState) :
    Engine × List Effect :=
  let e1 := { e with intervals := idDelete e.intervals id }
  let updatedTimer :=
    match getComputedTimer e1 now id with
    | none => timer.withRunning false
    | some computed =>
      match timer, computed with
      | .countdown c, .countdown cc =>
        TimerState.countdown { c with isRunning := false, remainingSeconds := cc.remainingSeconds }
      | .countup c, .countup cc =>
        TimerState.countup { c with isRunning := false, elapsedSeconds := cc.elapsedSeconds }
      | t, _ => t.withRunning false
  let e2 := { e1 with
    timers := mapSet e1.timers id updatedTimer
    runtimes := rtSet e1.runtimes ⟨id, 0, none, none⟩ }
  (e2, [Effect.onTimerUpdated updatedTimer])

/-- `pauseTimer(id)`: throws when the id is unknown, else `pauseTimerCore`. -/
def pauseTimer (e : Engine) (now : Int) (id : Int) : Except String (Engine × List Effect) :=
  match mapGet e.timers id with
  | none => .error ("Timer with id " ++ toString id ++ " not found")
  | some timer => .ok (pauseTimerCore e now id timer)

/-- `tickTimer(timerId)`: the per-second recurring task.  When the computed
countdown projection has reached zero and the already-fired marker is not
set, it sets the marker, pauses the timer, plays the alert with the
computed timer's label and alert config, re-fetches the stored timer and
marks it finished at zero; otherwise it just re-notifies observers with
the current computed state. -/
def tickTimer (e : Engine) (now : Int) (id : Int) : Engine × List Effect :=
  match getComputedTimer e now id with
  | none => (e, [])
  | some currentTimer =>
    match currentTimer with
    | .countdown c =>
      if c.remainingSeconds ≤ 0 ∧ ¬ id ∈ e.finishedTimers then
        let e1 := { e with finishedTimers := idInsert e.finishedTimers id }
        let pres :=
          match mapGet e1.timers id with
          | some t => pauseTimerCore e1 now id t
          | none => (e1, [])
        match mapGet pres.1.timers id with
        | some (.countdown lc) =>
          let finishedTimer :=
            TimerState.countdown { lc with remainingSeconds := 0, isFinished := true }
          let e3 := { pres.1 with timers := mapSet pres.1.timers id finishedTimer }
          (e3, pres.2 ++ [Effect.playAlert c.label c.alertConfig,
                          Effect.onTimerUpdated finishedTimer])
        | _ => (pres.1, pres.2 ++ [Effect.playAlert c.label c.alertConfig])
      else (e, [Effect.onTimerUpdated currentTimer])
    | .countup _ => (e, [Effect.onTimerUpdated currentTimer])

/-- `createCountdownTimer(label, totalSeconds, alertConfig?)`. -/
def createCountdownTimer (e : Engine) (label : String) (totalSeconds : Int)
    (alertConfig : Option AlertConfig) : Except String (Engine × List Effect) :=
  if totalSeconds ≤ 0 then .error "Total time must be greater than 0"
  else
    let id := e.nextId
    let timer : CountdownTimer :=
      { id := id
        label := label
        totalSeconds := totalSeconds
        remainingSeconds := totalSeconds
        isRunning := false
        isFinished := false
        isAcknowledged := false
        alertConfig := alertConfig.getD DEFAULT_ALERT_CONFIG }
    let e1 := { e with
      nextId := e.nextId + 1
      timers := mapSet e.timers id (.countdown timer) }
    .ok (e1, [Effect.onTimerCreated (.countdown timer)])

/-- `createCountupTimer(label)`. -/
def createCountupTimer (e : Engine) (label : String) : Engine × List Effect :=
  let id := e.nextId
  let timer : CountupTimer :=
    { id := id
      label := label
      elapsedSeconds := 0
      isRunning := false
      isFinished := false }
  let e1 := { e with
    nextId := e.nextId + 1
    timers := mapSet e.timers id (.countup timer) }
  (e1, [Effect.onTimerCreated (.countup timer)])

/-- Tail of `startTimer` once the countdown finished/acknowledged special
cases have fallen through: mark running, write a fresh runtime record with
`startedAt = now` and base taken from the stored timer's current value,
begin the tick schedule, persist, notify. -/
def startTimerGeneric (e : Engine) (now : Int) (id : Int) (timer : TimerState) :
    Engine × List Effect :=
  let updatedTimer := timer.withRunning true
  let e1 := { e with timers := mapSet e.timers id updatedTimer }
  let runtime : TimerRuntime :=
    { timerId := id
      startedAt := now
      baseRemainingSeconds :=
        match timer with
        | .countdown c => some c.remainingSeconds
        | .countup _ => none
      baseElapsedSeconds :=
        match timer with
        | .countup c => some c.elapsedSeconds
        | .countdown _ => none }
  let e2 := startInterval { e1 with runtimes := rtSet e1.runtimes runtime } id
  (e2, [Effect.onTimerUpdated updatedTimer])

/-- `startTimer(id)`: throws on an unknown id; a finished, unacknowledged
countdown timer is a no-op; a finished, acknowledged countdown timer is
reset to its total, cleared of finished/acknowledged and of the
already-fired marker, then started with base = its total; any other timer
goes through the generic start path. -/
def startTimer (e : Engine) (now : Int) (id : Int) : Except String (Engine × List Effect) :=
  match mapGet e.timers id with
  | none => .error ("Timer with id " ++ toString id ++ " not found")
  | some timer =>
    match timer with
    | .countdown c =>
      if c.isFinished && !c.isAcknowledged then .ok (e, [])
      else if c.isFinished && c.isAcknowledged then
        let resetTimer : CountdownTimer :=
          { c with
            remainingSeconds := c.totalSeconds
            isFinished := false
            isAcknowledged := false }
        let e1 := { e with
          timers := mapSet e.timers id (.countdown resetTimer)
          finishedTimers := idDelete e.finishedTimers id }
        let updatedTimer := TimerState.countdown { resetTimer with isRunning := true }
        let e2 := { e1 with timers := mapSet e1.timers id updatedTimer }
        let runtime : TimerRuntime := ⟨id, now, some resetTimer.totalSeconds, none⟩
        let e3 := startInterval { e2 with runtimes := rtSet e2.runtimes runtime } id
        .ok (e3, [Effect.onTimerUpdated updatedTimer])
      else .ok (startTimerGeneric e now id timer)
    | .countup _ => .ok (startTimerGeneric e now id timer)

/-- `resetCountdownTimer(id)`: throws unless the id denotes a countdown
timer; pauses it if its stored `isRunning` flag is set, then stores the
original snapshot with remaining reset to total and the finished and
acknowledged flags cleared, clears the already-fired marker, deletes the
runtime record, persists and notifies. -/
def resetCountdownTimer (e : Engine) (now : Int) (id : Int) :
    Except String (Engine × List Effect) :=
  match mapGet e.timers id with
  | some (.countdown c) =>
    let pres := if c.isRunning then pauseTimerCore e now id (.countdown c) else (e, [])
    let resetTimer := TimerState.countdown
      { c with
        remainingSeconds := c.totalSeconds
        isFinished := false
        isAcknowledged := false }
    let e2 := { pres.1 with
      timers := mapSet pres.1.timers id resetTimer
      finishedTimers := idDelete pres.1.finishedTimers id
      runtimes := rtDelete pres.1.runtimes id }
    .ok (e2, pres.2 ++ [Effect.onTimerUpdated resetTimer])
  | _ => .error ("Countdown timer with id " ++ toString id ++ " not found")

/-- `resetCountupTimer(id)`: throws unless the id denotes a count-up timer;
pauses it if its stored `isRunning` flag is set, zeroes the elapsed value,
deletes the runtime record, persists and notifies. -/
def resetCountupTimer (e : Engine) (now : Int) (id : Int) :
    Except String (Engine × List Effect) :=
  match mapGet e.timers id with
  | some (.countup c) =>
    let pres := if c.isRunning then pauseTimerCore e now id (.countup c) else (e, [])
    let resetTimer := TimerState.countup { c with elapsedSeconds := 0 }
    let e2 := { pres.1 with
      timers := mapSet pres.1.timers id resetTimer
      runtimes := rtDelete pres.1.runtimes id }
    .ok (e2, pres.2 ++ [Effect.onTimerUpdated resetTimer])
  | _ => .error ("Countup timer with id " ++ toString id ++ " not found")

/-- `acknowledgeTimer(id)`: throws unless the id denotes a countdown timer;
cancels any ongoing alert, then marks the stored timer acknowledged,
persists and notifies. -/
def acknowledgeTimer (e : Engine) (id : Int) : Except String (Engine × List Effect) :=
  match mapGet e.timers id with
  | some (.countdown c) =>
    let acknowledgedTimer := TimerState.countdown { c with isAcknowledged := true }
    .ok ({ e with timers := mapSet e.timers id acknowledgedTimer },
         [Effect.cancelAlert, Effect.onTimerUpdated acknowledgedTimer])
  | _ => .error ("Countdown timer with id " ++ toString id ++ " not found")

/-- `stopAlert(id)`: throws unless the id denotes a countdown timer; cancels
any ongoing alert, then marks the stored timer acknowledged, persists and
notifies. -/
def stopAlert (e : Engine) (id : Int) : Except String (Engine × List Effect) :=
  match mapGet e.timers id with
  | some (.countdown c) =>
    let stoppedTimer := TimerState.countdown { c with isAcknowledged := true }
    .ok ({ e with timers := mapSet e.timers id stoppedTimer },
         [Effect.cancelAlert, Effect.onTimerUpdated stoppedTimer])
  | _ => .error ("Countdown timer with id " ++ toString id ++ " not found")

/-- `deleteTimer(id)`: a silent no-op on an unknown id; otherwise stops the
tick schedule if the timer is running, cancels any ongoing alert, removes
the timer, its already-fired marker and its runtime record, persists and
notifies deletion. -/
def deleteTimer (e : Engine) (id : Int) : Engine × List Effect :=
  match mapGet e.timers id with
  | none => (e, [])
  | some timer =>
    let e1 := if timer.isRunning then { e with intervals := idDelete e.intervals id } else e
    let e2 := { e1 with
      timers := mapDelete e1.timers id
      finishedTimers := idDelete e1.finishedTimers id
      runtimes := rtDelete e1.runtimes id }
    (e2, [Effect.cancelAlert, Effect.onTimerDeleted id])

/-- `getTimer(id)`: always the live projection. -/
def getTimer (e : Engine) (now : Int) (id : Int) : Option TimerState :=
  getComputedTimer e now id

/-- `getAllTimers()`: the live projection of every stored timer. -/
def getAllTimers (e : Engine) (now : Int) : List TimerState :=
  e.timers.filterMap (fun t => getComputedTimer e now t.id)

/-- One iteration of the `loadTimers` loop: store the timer with its
`isRunning` flag cleared and bump the id counter past its id. -/
def loadStep (acc : List TimerState × Int) (timer : TimerState) : List TimerState × Int :=
  (mapSet acc.1 timer.id (timer.withRunning false),
   if timer.id ≥ acc.2 then timer.id + 1 else acc.2)

/-- `loadTimers`: rebuild the in-memory collection from the persisted one
with every `isRunning` flag cleared, bumping the id counter past every
loaded id.  (In this model `alertConfig` is a total field, so the
legacy-storage branch that fills in a missing config is vacuous.) -/
def loadTimers (stored : List TimerState) (seed : Int) : List TimerState × Int :=
  stored.foldl loadStep ([], seed)

/-- One iteration of the `resumeRunningTimers` loop, for one stored timer:
when its runtime record is present with `startedAt > 0`, mark it running,
install its interval, and if its countdown projection has already reached
zero, set the already-fired marker and (unless acknowledged) play the
alert. -/
def resumeStep (now : Int) (acc : Engine × List Effect) (timer : TimerState) :
    Engine × List Effect :=
  match rtGet acc.1.runtimes timer.id with
  | none => acc
  | some rt =>
    if rt.startedAt > 0 then
      let e1 := startInterval
        { acc.1 with timers := mapSet acc.1.timers timer.id (timer.withRunning true) } timer.id
      match getComputedTimer e1 now timer.id with
      | some (.countdown c) =>
        if c.remainingSeconds ≤ 0 then
          let e2 := { e1 with finishedTimers := idInsert e1.finishedTimers timer.id }
          if c.isAcknowledged then (e2, acc.2)
          else (e2, acc.2 ++ [Effect.playAlert c.label c.alertConfig])
        else (e1, acc.2)
      | _ => (e1, acc.2)
    else acc

/-- `resumeRunningTimers`: iterate `resumeStep` over the persisted timers. -/
def resumeRunningTimers (stored : List TimerState) (e : Engine) (now : Int) :
    Engine × List Effect :=
  stored.foldl (resumeStep now) (e, [])

/-- The `TimerService` constructor as observed across a reload: build a
fresh engine from the persisted timers and runtime records (`loadTimers`
then `resumeRunningTimers`), with the id counter seeded from the clock. -/
def reloadEngine (stored : List TimerState) (runtimes : List TimerRuntime)
    (seed : Int) (now : Int) : Engine × List Effect :=
  let loaded := loadTimers stored seed
  let e0 : Engine :=
    { timers := loaded.1
      runtimes := runtimes
      intervals := []
      finishedTimers := []
      nextId := loaded.2 }
  resumeRunningTimers stored e0 now

/-- The alerting-relevant state of `AudioService`: whether speech synthesis
has ongoing speech, the keys of pending repeat timeouts, and whether the
service has seen the first user interaction. -/
structure AudioState where
  speaking : Bool
  repeatTimeouts : List String
  initialized : Bool
  deriving Repr, DecidableEq

/-- `AudioService.cancelAlert`: cancel all ongoing speech and clear every
pending repeat timeout.  It takes no timer id: it is global. -/
def AudioState.cancelAlert (a : AudioState) : AudioState :=
  { a with speaking := false, repeatTimeouts := [] }

/-- `AudioService.playAlert`: a no-op when the config is disabled or the
service is uninitialized; otherwise cancel everything and start speaking. -/
def AudioState.playAlert (a : AudioState) (config : AlertConfig) : AudioState :=
  if !config.enabled then a
  else if !a.initialized then a
  else { a.cancelAlert with speaking := true }

/-- Interpret the Alert Dispatcher commands of an effect list on the audio
service state; observer notifications do not touch it. -/
def applyAudioEffect (a : AudioState) : Effect → AudioState
  | .playAlert _ config => a.playAlert config
  | .cancelAlert => a.cancelAlert
  | _ => a

/-- Run a whole effect list through the audio service. -/
def runAudioEffects (a : AudioState) (fx : List Effect) : AudioState :=
  fx.foldl applyAudioEffect a

/-! ## Basic lemmas about the keyed-collection helpers -/

theorem mapGet_nil (k : Int) : mapGet [] k = none := rfl

theorem mapGet_cons (t : TimerState) (ts : List TimerState) (k : Int) :
    mapGet (t :: ts) k = if t.id = k then some t else mapGet ts k := by
  by_cases h : t.id = k
  · rw [mapGet, List.find?_cons_of_pos _ (by simpa using h), if_pos h]
  · rw [mapGet, List.find?_cons_of_neg _ (by simpa using h), if_neg h]; rfl

theorem mapGet_mapSet_self (ts : List TimerState) (k : Int) (v : TimerState)
    (hv : v.id = k) : mapGet (mapSet ts k v) k = some v := by
  induction ts with
  | nil => simp [mapSet, mapGet_cons, mapGet_nil, hv]
  | cons t ts ih =>
    by_cases h : t.id = k
    · simp [mapSet, h, mapGet_cons, hv]
    · simp [mapSet, h, mapGet_cons, ih]

theorem mapGet_mapSet_ne (ts : List TimerState) (k k' : Int) (v : TimerState)
    (hv : v.id = k) (h : k ≠ k') : mapGet (mapSet ts k v) k' = mapGet ts k' := by
  induction ts with
  | nil =>
    simp only [mapSet]
    rw [mapGet_cons, if_neg (hv ▸ h)]
  | cons t ts ih =>
    by_cases ht : t.id = k
    · rw [mapSet, if_pos ht, mapGet_cons, mapGet_cons, if_neg (hv ▸ h), if_neg (ht ▸ h)]
    · rw [mapSet, if_neg ht, mapGet_cons, mapGet_cons, ih]

theorem mapGet_mapDelete_self (ts : List TimerState) (k : Int) :
    mapGet (mapDelete ts k) k = none := by
  induction ts with
  | nil => rfl
  | cons t ts ih =>
    by_cases h : t.id = k
    · simpa [mapDelete, h] using ih
    · simpa [mapDelete, h, mapGet_cons] using ih

theorem rtGet_nil (k : Int) : rtGet [] k = none := rfl

theorem rtGet_cons (r : TimerRuntime) (rs : List TimerRuntime) (k : Int) :
    rtGet (r :: rs) k = if r.timerId = k then some r else rtGet rs k := by
  by_cases h : r.timerId = k
  · rw [rtGet, List.find?_cons_of_pos _ (by simpa using h), if_pos h]
  · rw [rtGet, List.find?_cons_of_neg _ (by simpa using h), if_neg h]; rfl

theorem rtGet_rtSet_self (rs : List TimerRuntime) (v : TimerRuntime) :
    rtGet (rtSet rs v) v.timerId = some v := by
  induction rs with
  | nil => simp [rtSet, rtGet_cons, rtGet_nil]
  | cons r rs ih =>
    by_cases h : r.timerId = v.timerId
    · simp [rtSet, h, rtGet_cons]
    · simp [rtSet, h, rtGet_cons, ih]

theorem rtGet_rtSet_ne (rs : List TimerRuntime) (v : TimerRuntime) (k : Int)
    (h : v.timerId ≠ k) : rtGet (rtSet rs v) k = rtGet rs k := by
  induction rs with
  | nil =>
    simp only [rtSet]
    rw [rtGet_cons, if_neg h]
  | cons r rs ih =>
    by_cases hr : r.timerId = v.timerId
    · rw [rtSet, if_pos hr, rtGet_cons, rtGet_cons, if_neg h,
        if_neg (fun hk => h (hr ▸ hk))]
    · rw [rtSet, if_neg hr, rtGet_cons, rtGet_cons, ih]

theorem rtGet_rtDelete_self (rs : List TimerRuntime) (k : Int) :
    rtGet (rtDelete rs k) k = none := by
  induction rs with
  | nil => rfl
  | cons r rs ih =>
    by_cases h : r.timerId = k
    · simpa [rtDelete, h] using ih
    · simpa [rtDelete, h, rtGet_cons] using ih

theorem mapGet_some_id (ts : List TimerState) (k : Int) (t : TimerState)
    (h : mapGet ts k = some t) : t.id = k := by
  have := List.find?_some h
  simpa using this

theorem mapSet_mapSet (ts : List TimerState) (k : Int) (v v' : TimerState)
    (hv : v.id = k) : mapSet (mapSet ts k v) k v' = mapSet ts k v' := by
  induction ts with
  | nil => simp [mapSet, hv]
  | cons t ts ih =>
    by_cases h : t.id = k
    · simp [mapSet, h, hv]
    · simp [mapSet, h, ih]

theorem withRunning_id (t : TimerState) (b : Bool) : (t.withRunning b).id = t.id := by
  cases t <;> rfl

theorem idInsert_self_mem (l : List Int) (k : Int) : k ∈ idInsert l k := by
  unfold idInsert
  by_cases h : k ∈ l <;> simp [h]

theorem idInsert_mem_of_mem (l : List Int) (k a : Int) (h : a ∈ l) :
    a ∈ idInsert l k := by
  unfold idInsert
  by_cases hk : k ∈ l <;> simp [hk, h]

/-- `getComputedTimer` reads only the timer collection and the runtime
records. -/
theorem getComputedTimer_congr (e e' : Engine) (now id : Int)
    (h1 : e.timers = e'.timers) (h2 : e.runtimes = e'.runtimes) :
    getComputedTimer e now id = getComputedTimer e' now id := by
  unfold getComputedTimer
  rw [h1, h2]

/-- The projection preserves the variant and every field other than the
projected value: a countdown projection differs from the stored countdown
timer in at most `remainingSeconds`. -/
theorem computeTimer_countdown_inv (t : TimerState) (r : Option TimerRuntime) (now : Int)
    (c : CountdownTimer) (h : computeTimer t r now = .countdown c) :
    ∃ c₀, t = .countdown c₀ ∧ c = { c₀ with remainingSeconds := c.remainingSeconds } := by
  rcases t with c₀ | c₀
  · refine ⟨c₀, rfl, ?_⟩
    rcases r with _ | rt
    · simp [computeTimer] at h
      simp [← h]
    · by_cases h0 : rt.startedAt = 0
      · simp [computeTimer, h0] at h
        simp [← h]
      · simp [computeTimer, h0] at h
        simp [← h]
  · rcases r with _ | rt
    · simp [computeTimer] at h
    · by_cases h0 : rt.startedAt = 0 <;> simp [computeTimer, h0] at h

theorem computeTimer_countdown_shape (c : CountdownTimer) (r : Option TimerRuntime)
    (now : Int) :
    ∃ cc : CountdownTimer, computeTimer (.countdown c) r now = .countdown cc
      ∧ cc.id = c.id ∧ cc.label = c.label ∧ cc.totalSeconds = c.totalSeconds
      ∧ cc.isRunning = c.isRunning ∧ cc.isFinished = c.isFinished
      ∧ cc.isAcknowledged = c.isAcknowledged ∧ cc.alertConfig = c.alertConfig := by
  rcases r with _ | rt
  · exact ⟨c, rfl, rfl, rfl, rfl, rfl, rfl, rfl, rfl⟩
  · by_cases h0 : rt.startedAt = 0
    · refine ⟨c, ?_, rfl, rfl, rfl, rfl, rfl, rfl, rfl⟩
      simp [computeTimer, h0]
    · refine ⟨{ c with remainingSeconds := max 0 ((rt.baseRemainingSeconds.getD
        c.remainingSeconds) - (now - rt.startedAt).fdiv 1000) }, ?_, rfl, rfl, rfl, rfl,
        rfl, rfl, rfl⟩
      simp [computeTimer, h0]

theorem computeTimer_countup_shape (c : CountupTimer) (r : Option TimerRuntime)
    (now : Int) :
    ∃ cc : CountupTimer, computeTimer (.countup c) r now = .countup cc
      ∧ cc.id = c.id ∧ cc.label = c.label
      ∧ cc.isRunning = c.isRunning ∧ cc.isFinished = c.isFinished := by
  rcases r with _ | rt
  · exact ⟨c, rfl, rfl, rfl, rfl, rfl⟩
  · by_cases h0 : rt.startedAt = 0
    · refine ⟨c, ?_, rfl, rfl, rfl, rfl⟩
      simp [computeTimer, h0]
    · refine ⟨{ c with elapsedSeconds := (rt.baseElapsedSeconds.getD c.elapsedSeconds)
        + (now - rt.startedAt).fdiv 1000 }, ?_, rfl, rfl, rfl, rfl⟩
      simp [computeTimer, h0]

theorem pauseTimerCore_spec (e : Engine) (now id : Int) (t : TimerState)
    (ht : mapGet e.timers id = some t) :
    ∃ cur, getComputedTimer e now id = some cur
    ∧ pauseTimerCore e now id t =
      ({ e with
          timers := mapSet e.timers id (cur.withRunning false)
          runtimes := rtSet e.runtimes ⟨id, 0, none, none⟩
          intervals := idDelete e.intervals id },
       [Effect.onTimerUpdated (cur.withRunning false)]) := by
  refine ⟨computeTimer t (rtGet e.runtimes id) now, by simp [getComputedTimer, ht], ?_⟩
  unfold pauseTimerCore
  have hg1 : getComputedTimer
      { timers := e.timers
        runtimes := e.runtimes
        intervals := idDelete e.intervals id
        finishedTimers := e.finishedTimers
        nextId := e.nextId } now id = some (computeTimer t (rtGet e.runtimes id) now) := by
    rw [getComputedTimer_congr
      { timers := e.timers
        runtimes := e.runtimes
        intervals := idDelete e.intervals id
        finishedTimers := e.finishedTimers
        nextId := e.nextId } e now id rfl rfl]
    simp [getComputedTimer, ht]
  dsimp only
  rw [hg1]
  rcases t with c | c
  · obtain ⟨cc, hc, h1, h2, h3, h4, h5, h6, h7⟩ := computeTimer_countdown_shape c
      (rtGet e.runtimes id) now
    rw [hc]
    simp only [TimerState.withRunning]
    refine congrArg₂ Prod.mk ?_ ?_
    · simp [TimerState.countdown.injEq, CountdownTimer.mk.injEq, h1, h2, h3, h5, h6, h7]
    · simp [TimerState.countdown.injEq, CountdownTimer.mk.injEq, h1, h2, h3, h5, h6, h7]
  · obtain ⟨cc, hc, h1, h2, h4, h5⟩ := computeTimer_countup_shape c
      (rtGet e.runtimes id) now
    rw [hc]
    simp only [TimerState.withRunning]
    refine congrArg₂ Prod.mk ?_ ?_
    · simp [TimerState.countup.injEq, CountupTimer.mk.injEq, h1, h2, h5]
    · simp [TimerState.countup.injEq, CountupTimer.mk.injEq, h1, h2, h5]

theorem computeTimer_id (t : TimerState) (r : Option TimerRuntime) (now : Int) :
    (computeTimer t r now).id = t.id := by
  rcases t with c | c
  · obtain ⟨cc, hc, h1, _⟩ := computeTimer_countdown_shape c r now
    rw [hc]
    simpa [TimerState.id] using h1
  · obtain ⟨cc, hc, h1, _⟩ := computeTimer_countup_shape c r now
    rw [hc]
    simpa [TimerState.id] using h1

/-! ## Tick sequences and alert counting (C2) -/

/-- Whether an effect is an Alert Dispatcher "play" command. -/
def isPlay : Effect → Bool
  | .playAlert _ _ => true
  | _ => false

/-- Number of "play" commands in an effect trace. -/
def countPlays (fx : List Effect) : Nat :=
  (fx.filter isPlay).length

theorem countPlays_append (a b : List Effect) :
    countPlays (a ++ b) = countPlays a + countPlays b := by
  simp [countPlays, List.filter_append]

/-- A sequence of per-second ticks for one timer id at the given wall-clock
times, with the emitted effects concatenated in order. -/
def tickSeq (e : Engine) (id : Int) : List Int → Engine × List Effect
  | [] => (e, [])
  | t :: ts =>
    let p := tickTimer e t id
    let q := tickSeq p.1 id ts
    (q.1, p.2 ++ q.2)

/-- `pauseTimerCore` emits exactly one effect: the update notification. -/
theorem pauseTimerCore_effects (e : Engine) (now id : Int) (t : TimerState) :
    ∃ u, (pauseTimerCore e now id t).2 = [Effect.onTimerUpdated u] := by
  simp only [pauseTimerCore]
  exact ⟨_, rfl⟩

/-- `pauseTimerCore` never issues a play command. -/
theorem pauseTimerCore_no_play (e : Engine) (now id : Int) (t : TimerState) :
    countPlays (pauseTimerCore e now id t).2 = 0 := by
  obtain ⟨u, hu⟩ := pauseTimerCore_effects e now id t
  simp [hu, countPlays, isPlay]

/-- With the already-fired marker set for `id`, a tick for `id` leaves the
engine unchanged and issues no play command. -/
theorem tickTimer_of_marker (e : Engine) (now id : Int) (h : id ∈ e.finishedTimers) :
    (tickTimer e now id).1 = e ∧ countPlays (tickTimer e now id).2 = 0 := by
  rcases hg : getComputedTimer e now id with _ | t
  · simp [tickTimer, hg, countPlays]
  · rcases t with c | c
    · simp only [tickTimer, hg]
      rw [if_neg (fun hc => hc.2 h)]
      simp [countPlays, isPlay]
    · simp [tickTimer, hg, countPlays, isPlay]

/-- `pauseTimerCore` does not touch the already-fired marker set. -/
theorem pauseTimerCore_finished (e : Engine) (now id : Int) (t : TimerState) :
    (pauseTimerCore e now id t).1.finishedTimers = e.finishedTimers := by
  simp [pauseTimerCore]

/-- A tick issues at most one play command, and a tick that issues one sets
the already-fired marker for its id. -/
theorem tickTimer_play_le_one (e : Engine) (now id : Int) :
    countPlays (tickTimer e now id).2 ≤ 1
    ∧ (0 < countPlays (tickTimer e now id).2 →
        id ∈ (tickTimer e now id).1.finishedTimers) := by
  rcases hg : getComputedTimer e now id with _ | t
  · simp [tickTimer, hg, countPlays]
  · rcases t with c | c
    · by_cases hc : c.remainingSeconds ≤ 0 ∧ ¬ id ∈ e.finishedTimers
      · simp only [tickTimer, hg]
        rw [if_pos hc]
        rcases hp : mapGet e.timers id with _ | t₀
        · simp [hp, countPlays, countPlays_append, isPlay, idInsert_self_mem]
        · obtain ⟨u, hu⟩ := pauseTimerCore_effects
            { e with finishedTimers := idInsert e.finishedTimers id } now id t₀
          rcases hq : mapGet (pauseTimerCore
              { e with finishedTimers := idInsert e.finishedTimers id } now id t₀).1.timers id
            with _ | lt
          · simp [hp, hq, hu, countPlays, countPlays_append, isPlay,
              pauseTimerCore_finished, idInsert_self_mem]
          · rcases lt with lc | lc
            · simp [hp, hq, hu, countPlays, countPlays_append, isPlay,
                pauseTimerCore_finished, idInsert_self_mem]
            · simp [hp, hq, hu, countPlays, countPlays_append, isPlay,
                pauseTimerCore_finished, idInsert_self_mem]
      · simp only [tickTimer, hg]
        rw [if_neg hc]
        simp [countPlays, isPlay]
    · simp [tickTimer, hg, countPlays, isPlay]

/-- `tickTimer` on a countdown projection at zero with the marker unset
fires exactly one play command and sets the marker. -/
theorem tickTimer_fires_once (e : Engine) (now id : Int) (c : CountdownTimer)
    (hg : getComputedTimer e now id = some (.countdown c))
    (hz : c.remainingSeconds ≤ 0) (hm : ¬ id ∈ e.finishedTimers) :
    countPlays (tickTimer e now id).2 = 1
    ∧ id ∈ (tickTimer e now id).1.finishedTimers := by
  have hp : ∃ t₀, mapGet e.timers id = some t₀ := by
    rcases h : mapGet e.timers id with _ | t₀
    · rw [getComputedTimer, h] at hg
      simp at hg
    · exact ⟨t₀, rfl⟩
  obtain ⟨t₀, hp⟩ := hp
  simp only [tickTimer, hg]
  rw [if_pos ⟨hz, hm⟩]
  obtain ⟨u, hu⟩ := pauseTimerCore_effects
    { e with finishedTimers := idInsert e.finishedTimers id } now id t₀
  rcases hq : mapGet (pauseTimerCore
      { e with finishedTimers := idInsert e.finishedTimers id } now id t₀).1.timers id
    with _ | lt
  · simp [hp, hq, hu, countPlays, isPlay, countPlays_append,
      pauseTimerCore_finished, idInsert_self_mem]
  · rcases lt with lc | lc <;>
      simp [hp, hq, hu, countPlays, isPlay, countPlays_append,
        pauseTimerCore_finished, idInsert_self_mem]

/-- With the marker set, a whole tick sequence is inert: no state change,
no play command. -/
theorem tickSeq_of_marker (e : Engine) (id : Int) (ts : List Int)
    (h : id ∈ e.finishedTimers) :
    (tickSeq e id ts).1 = e ∧ countPlays (tickSeq e id ts).2 = 0 := by
  induction ts with
  | nil => exact ⟨rfl, rfl⟩
  | cons t ts ih =>
    have h1 := tickTimer_of_marker e t id h
    simp only [tickSeq]
    constructor
    · rw [h1.1]
      exact ih.1
    · rw [countPlays_append, h1.2, h1.1]
      simpa using ih.2

/-- Any tick sequence for one id plays at most once. -/
theorem tickSeq_play_le_one (e : Engine) (id : Int) (ts : List Int) :
    countPlays (tickSeq e id ts).2 ≤ 1 := by
  induction ts generalizing e with
  | nil => simp [tickSeq, countPlays]
  | cons t ts ih =>
    simp only [tickSeq]
    rw [countPlays_append]
    rcases Nat.eq_zero_or_pos (countPlays (tickTimer e t id).2) with h0 | hpos
    · rw [h0]
      simpa using ih (tickTimer e t id).1
    · have hm := (tickTimer_play_le_one e t id).2 hpos
      have hz := (tickSeq_of_marker (tickTimer e t id).1 id ts hm).2
      rw [hz]
      simpa using (tickTimer_play_le_one e t id).1

/-- Full characterization of the tick finish transition: when the computed
countdown projection is at zero and the marker is unset, the tick sets the
marker, pauses the timer (interval gone, runtime record overwritten with
`startedAt = 0`), stores it finished at zero, and emits the pause
notification, the play command with the computed label and config, and the
finished notification, in that order. -/
theorem tickTimer_fires_full (e : Engine) (now id : Int) (c c₀ : CountdownTimer)
    (ht : mapGet e.timers id = some (.countdown c₀))
    (hg : getComputedTimer e now id = some (.countdown c))
    (hz : c.remainingSeconds ≤ 0) (hm : ¬ id ∈ e.finishedTimers) :
    tickTimer e now id =
      ({ timers := mapSet e.timers id (.countdown { c₀ with
            isRunning := false
            remainingSeconds := 0
            isFinished := true })
         runtimes := rtSet e.runtimes ⟨id, 0, none, none⟩
         intervals := idDelete e.intervals id
         finishedTimers := idInsert e.finishedTimers id
         nextId := e.nextId },
       [Effect.onTimerUpdated (.countdown { c₀ with
          isRunning := false
          remainingSeconds := c.remainingSeconds }),
        Effect.playAlert c.label c.alertConfig,
        Effect.onTimerUpdated (.countdown { c₀ with
          isRunning := false
          remainingSeconds := 0
          isFinished := true })]) := by
  have hid : c₀.id = id := by
    have := mapGet_some_id e.timers id _ ht
    simpa [TimerState.id] using this
  have hg' : getComputedTimer
      { timers := e.timers
        runtimes := e.runtimes
        intervals := idDelete e.intervals id
        finishedTimers := idInsert e.finishedTimers id
        nextId := e.nextId } now id = some (.countdown c) := by
    rw [← hg]
    exact getComputedTimer_congr _ e now id rfl rfl
  have hpause : pauseTimerCore
      { timers := e.timers
        runtimes := e.runtimes
        intervals := e.intervals
        finishedTimers := idInsert e.finishedTimers id
        nextId := e.nextId } now id (.countdown c₀) =
      ({ timers := mapSet e.timers id (.countdown { c₀ with
            isRunning := false
            remainingSeconds := c.remainingSeconds })
         runtimes := rtSet e.runtimes ⟨id, 0, none, none⟩
         intervals := idDelete e.intervals id
         finishedTimers := idInsert e.finishedTimers id
         nextId := e.nextId },
       [Effect.onTimerUpdated (.countdown { c₀ with
          isRunning := false
          remainingSeconds := c.remainingSeconds })]) := by
    unfold pauseTimerCore
    dsimp only
    rw [hg']
  simp only [tickTimer, hg]
  rw [if_pos ⟨hz, hm⟩]
  rw [ht]
  try dsimp only
  rw [hpause]
  try dsimp only
  rw [mapGet_mapSet_self e.timers id _ (by simpa [TimerState.id] using hid)]
  try dsimp only
  rw [mapSet_mapSet e.timers id _ _ (by simpa [TimerState.id] using hid)]
  simp

theorem idDelete_not_mem (l : List Int) (k : Int) : ¬ k ∈ idDelete l k := by
  simp [idDelete]

/-! ## Lemmas about the resume-from-reload loop -/

/-- `resumeStep` never touches the persisted runtime records. -/
theorem resumeStep_runtimes (now : Int) (acc : Engine × List Effect) (t : TimerState) :
    (resumeStep now acc t).1.runtimes = acc.1.runtimes := by
  unfold resumeStep
  dsimp only
  repeat' split
  all_goals simp [startInterval]

/-- `resumeStep` never removes an id from the already-fired marker set. -/
theorem resumeStep_marker_mono (now : Int) (acc : Engine × List Effect) (t : TimerState)
    (id : Int) (h : id ∈ acc.1.finishedTimers) :
    id ∈ (resumeStep now acc t).1.finishedTimers := by
  unfold resumeStep
  dsimp only
  repeat' split
  all_goals simp [startInterval, idInsert_mem_of_mem, h]

/-- `resumeStep` for one stored timer does not disturb the map entry of a
different id. -/
theorem resumeStep_timers_ne (now : Int) (acc : Engine × List Effect) (t : TimerState)
    (id : Int) (h : t.id ≠ id) :
    mapGet (resumeStep now acc t).1.timers id = mapGet acc.1.timers id := by
  unfold resumeStep
  dsimp only
  repeat' split
  all_goals simp [startInterval, mapGet_mapSet_ne _ _ _ _ (withRunning_id t true) h]

theorem resume_foldl_marker_mono (now : Int) (l : List TimerState)
    (acc : Engine × List Effect) (id : Int) (h : id ∈ acc.1.finishedTimers) :
    id ∈ (l.foldl (resumeStep now) acc).1.finishedTimers := by
  induction l generalizing acc with
  | nil => exact h
  | cons t l ih => exact ih _ (resumeStep_marker_mono now acc t id h)

theorem resume_foldl_timers_ne (now : Int) (l : List TimerState)
    (acc : Engine × List Effect) (id : Int) (h : ∀ t ∈ l, t.id ≠ id) :
    mapGet (l.foldl (resumeStep now) acc).1.timers id = mapGet acc.1.timers id := by
  induction l generalizing acc with
  | nil => rfl
  | cons t l ih =>
    rw [List.foldl_cons, ih _ (fun t' ht' => h t' (List.mem_cons_of_mem _ ht')),
      resumeStep_timers_ne now acc t id (h t (List.mem_cons_self _ _))]

theorem resume_foldl_runtimes (now : Int) (l : List TimerState)
    (acc : Engine × List Effect) :
    (l.foldl (resumeStep now) acc).1.runtimes = acc.1.runtimes := by
  induction l generalizing acc with
  | nil => rfl
  | cons t l ih => rw [List.foldl_cons, ih, resumeStep_runtimes]

/-- The resume loop's focal step: for a stored countdown timer whose
runtime is active and whose projection has already reached zero, the step
marks the timer running, sets the already-fired marker, and plays the
alert exactly when the timer is not acknowledged. -/
theorem resumeStep_detects (now : Int) (acc : Engine × List Effect) (c : CountdownTimer)
    (rt : TimerRuntime) (hrt : rtGet acc.1.runtimes c.id = some rt)
    (hpos : rt.startedAt > 0)
    (hz : rt.baseRemainingSeconds.getD c.remainingSeconds ≤ (now - rt.startedAt).fdiv 1000) :
    c.id ∈ (resumeStep now acc (.countdown c)).1.finishedTimers
    ∧ mapGet (resumeStep now acc (.countdown c)).1.timers c.id =
        some (.countdown { c with isRunning := true })
    ∧ (resumeStep now acc (.countdown c)).2 =
        (if c.isAcknowledged then acc.2
         else acc.2 ++ [Effect.playAlert c.label c.alertConfig]) := by
  have hne : rt.startedAt ≠ 0 := by omega
  have hmax : max 0 ((rt.baseRemainingSeconds.getD c.remainingSeconds)
      - (now - rt.startedAt).fdiv 1000) ≤ 0 := max_le le_rfl (by omega)
  have hcomp : getComputedTimer
      (startInterval
        { timers := mapSet acc.1.timers c.id (TimerState.countdown { c with isRunning := true })
          runtimes := acc.1.runtimes
          intervals := acc.1.intervals
          finishedTimers := acc.1.finishedTimers
          nextId := acc.1.nextId } c.id) now c.id =
      some (.countdown { c with
        isRunning := true
        remainingSeconds := max 0 ((rt.baseRemainingSeconds.getD c.remainingSeconds)
          - (now - rt.startedAt).fdiv 1000) }) := by
    rw [getComputedTimer]
    dsimp only [startInterval]
    rw [mapGet_mapSet_self acc.1.timers c.id
      (TimerState.countdown { c with isRunning := true }) rfl, hrt]
    simp [computeTimer, hne]
  unfold resumeStep
  dsimp only [TimerState.id, TimerState.withRunning]
  rw [hrt]
  dsimp only
  rw [if_pos hpos, hcomp]
  dsimp only
  rw [if_pos hmax]
  by_cases hack : c.isAcknowledged
  · simp [hack, startInterval, idInsert_self_mem, mapGet_mapSet_self, TimerState.id]
  · simp [hack, startInterval, idInsert_self_mem, mapGet_mapSet_self, TimerState.id]

/-- The whole resume loop detects an already-finished running countdown
timer: its id ends up in the already-fired marker set and its map entry is
the stored timer marked running (so, in particular, still unfinished). -/
theorem resume_foldl_detects (now : Int) (l : List TimerState)
    (acc : Engine × List Effect) (c : CountdownTimer) (rt : TimerRuntime)
    (hmem : TimerState.countdown c ∈ l)
    (hnd : (l.map TimerState.id).Nodup)
    (hrt : rtGet acc.1.runtimes c.id = some rt)
    (hpos : rt.startedAt > 0)
    (hz : rt.baseRemainingSeconds.getD c.remainingSeconds ≤ (now - rt.startedAt).fdiv 1000) :
    c.id ∈ (l.foldl (resumeStep now) acc).1.finishedTimers
    ∧ mapGet (l.foldl (resumeStep now) acc).1.timers c.id =
        some (.countdown { c with isRunning := true }) := by
  induction l generalizing acc with
  | nil => cases hmem
  | cons t l ih =>
    rcases List.mem_cons.mp hmem with heq | hmem'
    · subst heq
      have hd := resumeStep_detects now acc c rt hrt hpos hz
      have hids : ∀ t' ∈ l, t'.id ≠ c.id := by
        intro t' ht' hcontra
        apply (List.nodup_cons.mp hnd).1
        rw [show (TimerState.countdown c).id = c.id from rfl, ← hcontra]
        exact List.mem_map_of_mem TimerState.id ht'
      constructor
      · rw [List.foldl_cons]
        exact resume_foldl_marker_mono now l _ c.id hd.1
      · rw [List.foldl_cons, resume_foldl_timers_ne now l _ c.id hids]
        exact hd.2.1
    · refine ih (resumeStep now acc t) hmem' (List.nodup_cons.mp hnd).2 ?_
      rw [resumeStep_runtimes]
      exact hrt

/-! ## C2 — the alert fires exactly once per run -/

/-- C2: a countdown timer's play command is invoked exactly once per run.
Along any sequence of ticks: (1) at most one play command is ever issued;
(2) with the per-id already-fired marker set, no tick plays at all;
(3) when a tick observes a countdown projection at zero with the marker
unset, exactly one play command is issued across that tick and every
later tick, however many of them observe zero again; (4) when
resume-from-reload detection has already observed a finished running
countdown timer, every subsequent tick issues zero play commands; and
(5) the resume detection itself plays exactly once for such a timer
(unacknowledged, single stored timer).  The marker stays set until a
reset or acknowledged restart clears it. -/
theorem alert_fires_exactly_once_per_run (e : Engine) (id : Int) (ts : List Int) :
    countPlays (tickSeq e id ts).2 ≤ 1
    ∧ (id ∈ e.finishedTimers → countPlays (tickSeq e id ts).2 = 0)
    ∧ (∀ now c, getComputedTimer e now id = some (.countdown c) →
        c.remainingSeconds ≤ 0 → ¬ id ∈ e.finishedTimers →
        countPlays (tickSeq e id (now :: ts)).2 = 1)
    ∧ (∀ stored rts seed now c rt,
        TimerState.countdown c ∈ stored →
        (stored.map TimerState.id).Nodup →
        rtGet rts c.id = some rt → rt.startedAt > 0 →
        rt.baseRemainingSeconds.getD c.remainingSeconds ≤ (now - rt.startedAt).fdiv 1000 →
        countPlays (tickSeq (reloadEngine stored rts seed now).1 c.id ts).2 = 0)
    ∧ (∀ c rt seed now, rt.timerId = c.id → rt.startedAt > 0 →
        c.isAcknowledged = false →
        rt.baseRemainingSeconds.getD c.remainingSeconds ≤ (now - rt.startedAt).fdiv 1000 →
        countPlays (reloadEngine [.countdown c] [rt] seed now).2 = 1) := by
  refine ⟨tickSeq_play_le_one e id ts, fun h => (tickSeq_of_marker e id ts h).2, ?_, ?_, ?_⟩
  · intro now c hg hz hm
    simp only [tickSeq]
    rw [countPlays_append]
    have h1 := tickTimer_fires_once e now id c hg hz hm
    rw [h1.1, (tickSeq_of_marker _ id ts h1.2).2]
  · intro stored rts seed now c rt hmem hnd hrt hpos hz
    have hd := resume_foldl_detects now stored
      ({ timers := (loadTimers stored seed).1
         runtimes := rts
         intervals := []
         finishedTimers := []
         nextId := (loadTimers stored seed).2 }, ([] : List Effect))
      c rt hmem hnd hrt hpos hz
    exact (tickSeq_of_marker _ c.id ts hd.1).2
  · intro c rt seed now hrtid hpos hack hz
    have hrt : rtGet [rt] c.id = some rt := by
      rw [rtGet_cons, if_pos hrtid]
    have hd := resumeStep_detects now
      ({ timers := (loadTimers [.countdown c] seed).1
         runtimes := [rt]
         intervals := []
         finishedTimers := []
         nextId := (loadTimers [.countdown c] seed).2 }, ([] : List Effect))
      c rt hrt hpos hz
    simp only [reloadEngine, resumeRunningTimers, List.foldl_cons, List.foldl_nil]
    rw [hd.2.2]
    simp [hack, countPlays, isPlay]

/-- A running countdown timer whose stored value is 5 of 5 seconds. -/
def sampleCdZero : CountdownTimer :=
  { id := 1
    label := "bake"
    totalSeconds := 5
    remainingSeconds := 5
    isRunning := true
    isFinished := false
    isAcknowledged := false
    alertConfig := DEFAULT_ALERT_CONFIG }

/-- An engine where `sampleCdZero` has been running since time 1000, so
its projection reaches zero from time 6000 on. -/
def sampleZeroEngine : Engine :=
  { timers := [.countdown sampleCdZero]
    runtimes := [⟨1, 1000, some 5, none⟩]
    intervals := [1]
    finishedTimers := []
    nextId := 2 }

/-- Witness for C2: three ticks at times 10000, 11000, 12000 all observe a
zero projection, yet exactly one play command is issued; and resume
detection on the same persisted data plays exactly once. -/
theorem alert_fires_exactly_once_per_run_witness :
    countPlays (tickSeq sampleZeroEngine 1 (10000 :: [11000, 12000])).2 = 1
    ∧ countPlays (reloadEngine [.countdown sampleCdZero] [⟨1, 1000, some 5, none⟩]
        50 10000).2 = 1 := by
  constructor
  · exact (alert_fires_exactly_once_per_run sampleZeroEngine 1 [11000, 12000]).2.2.1 10000
      { sampleCdZero with remainingSeconds := 0 } (by decide) (by decide) (by decide)
  · exact (alert_fires_exactly_once_per_run sampleZeroEngine 1 []).2.2.2.2 sampleCdZero
      ⟨1, 1000, some 5, none⟩ 50 10000 (by decide) (by decide) (by decide) (by decide)

/-! ## Fixtures: concrete sample data used by witness theorems -/

/-- A concrete alert configuration. -/
def sampleConfig : AlertConfig :=
  { enabled := true
    repeatCount := .finite 3
    waitBetweenRepeat := 10
    utteranceTemplate := "done" }

/-- A concrete stored countdown timer with 8 of 10 seconds remaining. -/
def sampleCd : CountdownTimer :=
  { id := 1
    label := "bake"
    totalSeconds := 10
    remainingSeconds := 8
    isRunning := true
    isFinished := false
    isAcknowledged := false
    alertConfig := sampleConfig }

/-- An engine holding `sampleCd`, running since wall-clock time 1000 with
base 8 seconds remaining. -/
def sampleEngine : Engine :=
  { timers := [.countdown sampleCd]
    runtimes := [⟨1, 1000, some 8, none⟩]
    intervals := [1]
    finishedTimers := []
    nextId := 2 }

/-! ## C1 — the projection `getComputedTimer` -/

/-- C1: for every timer state `t` held at id `id`, runtime record `r` and
wall-clock time `now`, the projection `getComputedTimer` returns `t`
unchanged when the runtime record is absent or has `startedAt = 0`;
otherwise, with `elapsed = floor((now - r.startedAt) / 1000)`, it returns
`t` with `remainingSeconds = max 0 (r.baseRemainingSeconds - elapsed)`
when `t` is a countdown timer and with
`elapsedSeconds = r.baseElapsedSeconds + elapsed` when `t` is a count-up
timer, leaving every other field of `t` unchanged (the record-update
results below change only the named field); being a pure query it returns
a fresh value and touches neither the stored timer nor the runtime
record. -/
theorem getComputedTimer_spec (e : Engine) (now id : Int) (t : TimerState)
    (ht : mapGet e.timers id = some t) :
    (rtGet e.runtimes id = none → getComputedTimer e now id = some t)
    ∧ (∀ r, rtGet e.runtimes id = some r → r.startedAt = 0 →
        getComputedTimer e now id = some t)
    ∧ (∀ r c b, rtGet e.runtimes id = some r → r.startedAt ≠ 0 →
        t = .countdown c → r.baseRemainingSeconds = some b →
        getComputedTimer e now id = some (.countdown { c with
          remainingSeconds := max 0 (b - (now - r.startedAt).fdiv 1000) }))
    ∧ (∀ r c b, rtGet e.runtimes id = some r → r.startedAt ≠ 0 →
        t = .countup c → r.baseElapsedSeconds = some b →
        getComputedTimer e now id = some (.countup { c with
          elapsedSeconds := b + (now - r.startedAt).fdiv 1000 })) := by
  refine ⟨?_, ?_, ?_, ?_⟩
  · intro hr
    simp [getComputedTimer, ht, hr, computeTimer]
  · intro r hr h0
    simp [getComputedTimer, ht, hr, computeTimer, h0]
  · intro r c b hr h0 htc hb
    simp [getComputedTimer, ht, hr, computeTimer, h0, htc, hb]
  · intro r c b hr h0 htc hb
    simp [getComputedTimer, ht, hr, computeTimer, h0, htc, hb]

/-- Witness for C1 at concrete data: `sampleEngine` queried at time 7000
(6 whole seconds after the runtime's start) projects 8 - 6 = 2 seconds
remaining. -/
theorem getComputedTimer_spec_witness :
    getComputedTimer sampleEngine 7000 1 =
      some (.countdown { sampleCd with remainingSeconds := 2 }) := by
  have h := (getComputedTimer_spec sampleEngine 7000 1 (.countdown sampleCd)
    rfl).2.2.1 ⟨1, 1000, some 8, none⟩ sampleCd 8 rfl (by decide) rfl rfl
  simpa using h

/-! ## C3 — what happens when a running countdown reaches zero -/

/-- C3 counterexample: resume-from-reload detection of an already-finished
running countdown timer plays the alert but neither pauses the timer nor
sets `isFinished`: after `reloadEngine` the stored timer is unchanged
(still `isRunning = true`, `isFinished = false`) and its runtime record is
still active, contradicting the claim that both detection paths pause the
timer and mark it finished. -/
theorem finish_transition_counterexample :
    countPlays
      (reloadEngine [.countdown sampleCdZero] [⟨1, 1000, some 5, none⟩] 50 20000).2 = 1
    ∧ mapGet
        (reloadEngine [.countdown sampleCdZero] [⟨1, 1000, some 5, none⟩] 50 20000).1.timers
        1 = some (.countdown sampleCdZero)
    ∧ rtGet
        (reloadEngine [.countdown sampleCdZero] [⟨1, 1000, some 5, none⟩] 50 20000).1.runtimes
        1 = some ⟨1, 1000, some 5, none⟩
    ∧ sampleCdZero.isRunning = true
    ∧ sampleCdZero.isFinished = false := by
  decide

/-- C3 (amended): when a running countdown timer's projection reaches 0,
the two detection paths behave differently.  Detected by the periodic
tick (marker unset): the engine pauses the timer — interval cancelled,
runtime record overwritten with `startedAt = 0` — stores it with
`remainingSeconds = 0` and `isFinished = true`, and invokes the Alert
Dispatcher's play command with the timer's label and alert config.
Detected by resume-from-reload: the engine only sets the already-fired
marker (playing the alert unless acknowledged, per C2), leaving the timer
marked running with `isFinished` unchanged and the runtime records
untouched. -/
theorem finish_transition (e : Engine) (now id : Int) :
    (∀ c c₀, mapGet e.timers id = some (.countdown c₀) →
      getComputedTimer e now id = some (.countdown c) →
      c.remainingSeconds ≤ 0 → ¬ id ∈ e.finishedTimers →
      mapGet (tickTimer e now id).1.timers id = some (.countdown { c₀ with
          isRunning := false
          remainingSeconds := 0
          isFinished := true })
      ∧ rtGet (tickTimer e now id).1.runtimes id = some ⟨id, 0, none, none⟩
      ∧ ¬ id ∈ (tickTimer e now id).1.intervals
      ∧ Effect.playAlert c.label c.alertConfig ∈ (tickTimer e now id).2)
    ∧ (∀ stored rts seed c rt,
        TimerState.countdown c ∈ stored → (stored.map TimerState.id).Nodup →
        rtGet rts c.id = some rt → rt.startedAt > 0 →
        rt.baseRemainingSeconds.getD c.remainingSeconds ≤ (now - rt.startedAt).fdiv 1000 →
        c.id ∈ (reloadEngine stored rts seed now).1.finishedTimers
        ∧ mapGet (reloadEngine stored rts seed now).1.timers c.id =
            some (.countdown { c with isRunning := true })
        ∧ (reloadEngine stored rts seed now).1.runtimes = rts) := by
  constructor
  · intro c c₀ ht hg hz hm
    have hid : c₀.id = id := by
      have := mapGet_some_id e.timers id _ ht
      simpa [TimerState.id] using this
    rw [tickTimer_fires_full e now id c c₀ ht hg hz hm]
    refine ⟨?_, ?_, ?_, ?_⟩
    · exact mapGet_mapSet_self e.timers id _ (by simpa [TimerState.id] using hid)
    · exact rtGet_rtSet_self e.runtimes ⟨id, 0, none, none⟩
    · exact idDelete_not_mem e.intervals id
    · simp
  · intro stored rts seed c rt hmem hnd hrt hpos hz
    have hd := resume_foldl_detects now stored
      ({ timers := (loadTimers stored seed).1
         runtimes := rts
         intervals := []
         finishedTimers := []
         nextId := (loadTimers stored seed).2 }, ([] : List Effect))
      c rt hmem hnd hrt hpos hz
    refine ⟨hd.1, hd.2, ?_⟩
    exact resume_foldl_runtimes now stored _

/-- Witness for C3's amended tick path at concrete data: the tick at time
11000 on `sampleZeroEngine` stores the timer finished at zero, clears its
runtime, and plays the alert with its label and config. -/
theorem finish_transition_witness :
    mapGet (tickTimer sampleZeroEngine 11000 1).1.timers 1 =
      some (.countdown { sampleCdZero with
        isRunning := false
        remainingSeconds := 0
        isFinished := true })
    ∧ rtGet (tickTimer sampleZeroEngine 11000 1).1.runtimes 1 = some ⟨1, 0, none, none⟩
    ∧ Effect.playAlert "bake" DEFAULT_ALERT_CONFIG ∈ (tickTimer sampleZeroEngine 11000 1).2 := by
  have h := (finish_transition sampleZeroEngine 11000 1).1
    { sampleCdZero with remainingSeconds := 0 } sampleCdZero
    (by decide) (by decide) (by decide) (by decide)
  exact ⟨h.1, h.2.1, by simpa using h.2.2.2⟩

/-! ## C4 — starting a finished countdown timer -/

/-- C4: for a finished, unacknowledged countdown timer, `startTimer` is a
no-op — the engine state is returned unchanged and no effect is emitted —
while for a finished, acknowledged countdown timer it resets
`remainingSeconds` to the original `totalSeconds`, clears `isFinished` and
`isAcknowledged`, clears the already-fired marker, and starts the timer
running (fresh runtime record with `startedAt = now` and base equal to the
total, tick schedule installed). -/
theorem startTimer_finished (e : Engine) (now id : Int) (c : CountdownTimer)
    (ht : mapGet e.timers id = some (.countdown c)) :
    (c.isFinished = true → c.isAcknowledged = false →
      startTimer e now id = .ok (e, []))
    ∧ (c.isFinished = true → c.isAcknowledged = true →
      ∃ e', startTimer e now id = .ok (e',
          [Effect.onTimerUpdated (.countdown { c with
            remainingSeconds := c.totalSeconds
            isFinished := false
            isAcknowledged := false
            isRunning := true })])
        ∧ mapGet e'.timers id = some (.countdown { c with
            remainingSeconds := c.totalSeconds
            isFinished := false
            isAcknowledged := false
            isRunning := true })
        ∧ ¬ id ∈ e'.finishedTimers
        ∧ rtGet e'.runtimes id = some ⟨id, now, some c.totalSeconds, none⟩
        ∧ id ∈ e'.intervals) := by
  have hid : c.id = id := by
    have := mapGet_some_id e.timers id _ ht
    simpa [TimerState.id] using this
  constructor
  · intro hf hna
    simp only [startTimer, ht]
    rw [if_pos (by simp [hf, hna])]
  · intro hf ha
    simp only [startTimer, ht]
    rw [if_neg (by simp [hf, ha]), if_pos (by simp [hf, ha])]
    refine ⟨_, rfl, ?_, ?_, ?_, ?_⟩
    · show mapGet (mapSet (mapSet e.timers id _) id _) id = _
      rw [mapSet_mapSet e.timers id _ _ (by simpa [TimerState.id] using hid)]
      exact mapGet_mapSet_self e.timers id _ (by simpa [TimerState.id] using hid)
    · exact idDelete_not_mem e.finishedTimers id
    · exact rtGet_rtSet_self _ ⟨id, now, some c.totalSeconds, none⟩
    · exact idInsert_self_mem _ id

/-- A finished, unacknowledged countdown timer. -/
def sampleCdFin : CountdownTimer :=
  { id := 3
    label := "tea"
    totalSeconds := 5
    remainingSeconds := 0
    isRunning := false
    isFinished := true
    isAcknowledged := false
    alertConfig := DEFAULT_ALERT_CONFIG }

/-- An engine holding the finished, unacknowledged `sampleCdFin`. -/
def sampleFinEngine : Engine :=
  { timers := [.countdown sampleCdFin]
    runtimes := []
    intervals := []
    finishedTimers := [3]
    nextId := 4 }

/-- An engine holding the finished-and-acknowledged variant of
`sampleCdFin`. -/
def sampleAckEngine : Engine :=
  { timers := [.countdown { sampleCdFin with isAcknowledged := true }]
    runtimes := []
    intervals := []
    finishedTimers := [3]
    nextId := 4 }

/-- Witness for C4: the finished, unacknowledged timer cannot be started
(engine unchanged, no effects); the acknowledged one restarts reset to its
total of 5 seconds. -/
theorem startTimer_finished_witness :
    startTimer sampleFinEngine 5000 3 = .ok (sampleFinEngine, [])
    ∧ ∃ e', startTimer sampleAckEngine 5000 3 = .ok (e',
        [Effect.onTimerUpdated (.countdown { { sampleCdFin with isAcknowledged := true } with
          remainingSeconds := (5 : Int)
          isFinished := false
          isAcknowledged := false
          isRunning := true })])
      ∧ mapGet e'.timers 3 = some (.countdown { { sampleCdFin with isAcknowledged := true } with
          remainingSeconds := (5 : Int)
          isFinished := false
          isAcknowledged := false
          isRunning := true })
      ∧ ¬ (3 : Int) ∈ e'.finishedTimers
      ∧ rtGet e'.runtimes 3 = some ⟨3, 5000, some 5, none⟩
      ∧ (3 : Int) ∈ e'.intervals := by
  constructor
  · exact (startTimer_finished sampleFinEngine 5000 3 sampleCdFin rfl).1 rfl rfl
  · exact (startTimer_finished sampleAckEngine 5000 3
      { sampleCdFin with isAcknowledged := true } rfl).2 rfl rfl

/-! ## C5 — startTimer writes the runtime base -/

/-- C5 counterexample: restarting an already-running countdown timer does
not use the projection as the runtime base.  In `sampleEngine` the timer
has stored value 8 but projects to 2 at time 7000; `startTimer` at that
moment writes a fresh runtime record whose base is the stale stored 8,
not the projected 2 — in-flight elapsed time is lost, contradicting
"base value equal to the timer's current projected value ... including
when startTimer is invoked on a timer that is already running". -/
theorem startTimer_running_counterexample :
    getComputedTimer sampleEngine 7000 1 =
      some (.countdown { sampleCd with remainingSeconds := 2 })
    ∧ (match startTimer sampleEngine 7000 1 with
        | .ok p => rtGet p.1.runtimes 1
        | .error _ => none) = some ⟨1, 7000, some 8, none⟩
    ∧ (⟨1, 7000, some 8, none⟩ : TimerRuntime).baseRemainingSeconds ≠ some 2 := by
  decide

/-- C5 (amended): for every existing non-finished timer, `startTimer`
marks it running and writes a fresh runtime record with `startedAt = now`
and base equal to the timer's current STORED value (remaining seconds for
countdown, elapsed seconds for count-up), and installs the tick schedule.
When the timer is not already running (no runtime record, or
`startedAt = 0`) the stored value coincides with the current projection,
so no elapsed time is lost; when it is already running, the base written
is the stale stored value, not the projection. -/
theorem startTimer_running_spec (e : Engine) (now id : Int) (t : TimerState)
    (ht : mapGet e.timers id = some t)
    (hnf : ∀ c, t = TimerState.countdown c → c.isFinished = false) :
    (∃ e', startTimer e now id = .ok (e', [Effect.onTimerUpdated (t.withRunning true)])
      ∧ mapGet e'.timers id = some (t.withRunning true)
      ∧ rtGet e'.runtimes id = some ⟨id, now,
          (match t with | .countdown c => some c.remainingSeconds | .countup _ => none),
          (match t with | .countup c => some c.elapsedSeconds | .countdown _ => none)⟩
      ∧ id ∈ e'.intervals)
    ∧ ((rtGet e.runtimes id = none ∨ ∃ r, rtGet e.runtimes id = some r ∧ r.startedAt = 0) →
        getComputedTimer e now id = some t) := by
  have hid : t.id = id := mapGet_some_id e.timers id t ht
  constructor
  · rcases t with c | c
    · have hf : c.isFinished = false := hnf c rfl
      simp only [startTimer, ht]
      rw [if_neg (by simp [hf]), if_neg (by simp [hf])]
      refine ⟨_, rfl, ?_, ?_, ?_⟩
      · show mapGet (mapSet e.timers id ((TimerState.countdown c).withRunning true)) id = _
        exact mapGet_mapSet_self e.timers id _ (by rw [withRunning_id]; exact hid)
      · show rtGet (rtSet e.runtimes ⟨id, now, some c.remainingSeconds, none⟩) id = _
        exact rtGet_rtSet_self e.runtimes ⟨id, now, some c.remainingSeconds, none⟩
      · show id ∈ idInsert (idDelete e.intervals id) id
        exact idInsert_self_mem _ id
    · simp only [startTimer, ht]
      refine ⟨_, rfl, ?_, ?_, ?_⟩
      · show mapGet (mapSet e.timers id ((TimerState.countup c).withRunning true)) id = _
        exact mapGet_mapSet_self e.timers id _ (by rw [withRunning_id]; exact hid)
      · show rtGet (rtSet e.runtimes ⟨id, now, none, some c.elapsedSeconds⟩) id = _
        exact rtGet_rtSet_self e.runtimes ⟨id, now, none, some c.elapsedSeconds⟩
      · show id ∈ idInsert (idDelete e.intervals id) id
        exact idInsert_self_mem _ id
  · intro h
    rcases h with h | ⟨r, hr, h0⟩
    · simp [getComputedTimer, ht, h, computeTimer]
    · simp [getComputedTimer, ht, hr, computeTimer, h0]

/-- A paused countdown timer with 6 of 10 seconds remaining. -/
def sampleCdPaused : CountdownTimer :=
  { id := 4
    label := "rest"
    totalSeconds := 10
    remainingSeconds := 6
    isRunning := false
    isFinished := false
    isAcknowledged := false
    alertConfig := DEFAULT_ALERT_CONFIG }

/-- An engine holding the paused `sampleCdPaused` with no runtime record. -/
def samplePausedEngine : Engine :=
  { timers := [.countdown sampleCdPaused]
    runtimes := []
    intervals := []
    finishedTimers := []
    nextId := 5 }

/-- Witness for C5's amended statement: starting the paused timer at time
9000 writes a runtime with base 6 — exactly its projection, since it was
not running. -/
theorem startTimer_running_spec_witness :
    (∃ e', startTimer samplePausedEngine 9000 4 = .ok (e',
        [Effect.onTimerUpdated ((TimerState.countdown sampleCdPaused).withRunning true)])
      ∧ mapGet e'.timers 4 = some ((TimerState.countdown sampleCdPaused).withRunning true)
      ∧ rtGet e'.runtimes 4 = some ⟨4, 9000, some 6, none⟩
      ∧ (4 : Int) ∈ e'.intervals)
    ∧ getComputedTimer samplePausedEngine 9000 4 = some (.countdown sampleCdPaused) := by
  have h := startTimer_running_spec samplePausedEngine 9000 4 (.countdown sampleCdPaused) rfl
    (fun c hc => by injection hc with hh; rw [← hh]; rfl)
  exact ⟨h.1, h.2 (Or.inl rfl)⟩

/-! ## C6 — pauseTimer freezes the projection -/

/-- C6: for every existing timer, `pauseTimer` computes the current
projection and freezes it into the stored value with `isRunning = false`,
stops the tick schedule, and overwrites the runtime record with
`startedAt = 0` (cleared), after which the stored value is authoritative:
every later projection returns it unchanged.  In particular a countdown
timer running since `t0` with base `b` that is paused at
`t0 + 1000·n` milliseconds (n whole seconds, `n ≤ b`) is stored with
`remainingSeconds = b - n`. -/
theorem pauseTimer_spec (e : Engine) (now id : Int) :
    (∀ t, mapGet e.timers id = some t →
      ∃ e' cur, getComputedTimer e now id = some cur
        ∧ pauseTimer e now id = .ok (e', [Effect.onTimerUpdated (cur.withRunning false)])
        ∧ mapGet e'.timers id = some (cur.withRunning false)
        ∧ rtGet e'.runtimes id = some ⟨id, 0, none, none⟩
        ∧ ¬ id ∈ e'.intervals
        ∧ (∀ q, getComputedTimer e' q id = some (cur.withRunning false)))
    ∧ (∀ c b t0 n, mapGet e.timers id = some (.countdown c) →
        rtGet e.runtimes id = some ⟨id, t0, some b, none⟩ → t0 ≠ 0 →
        now = t0 + 1000 * n → 0 ≤ n → n ≤ b →
        ∃ e' fx, pauseTimer e now id = .ok (e', fx)
          ∧ mapGet e'.timers id = some (.countdown { c with
              isRunning := false
              remainingSeconds := b - n })
          ∧ rtGet e'.runtimes id = some ⟨id, 0, none, none⟩) := by
  have main : ∀ t, mapGet e.timers id = some t →
      ∃ e' cur, getComputedTimer e now id = some cur
        ∧ pauseTimer e now id = .ok (e', [Effect.onTimerUpdated (cur.withRunning false)])
        ∧ mapGet e'.timers id = some (cur.withRunning false)
        ∧ rtGet e'.runtimes id = some ⟨id, 0, none, none⟩
        ∧ ¬ id ∈ e'.intervals
        ∧ (∀ q, getComputedTimer e' q id = some (cur.withRunning false)) := by
    intro t ht
    obtain ⟨cur, hcur, hpc⟩ := pauseTimerCore_spec e now id t ht
    have hcurid : cur.id = id := by
      have h1 : cur = computeTimer t (rtGet e.runtimes id) now := by
        have : some cur = some (computeTimer t (rtGet e.runtimes id) now) := by
          rw [← hcur]
          simp [getComputedTimer, ht]
        exact Option.some.inj this
      rw [h1, computeTimer_id]
      exact mapGet_some_id e.timers id t ht
    have hmg : mapGet (mapSet e.timers id (cur.withRunning false)) id =
        some (cur.withRunning false) :=
      mapGet_mapSet_self e.timers id _ (by rw [withRunning_id]; exact hcurid)
    refine ⟨{ e with
        timers := mapSet e.timers id (cur.withRunning false)
        runtimes := rtSet e.runtimes ⟨id, 0, none, none⟩
        intervals := idDelete e.intervals id }, cur, hcur, ?_, hmg, ?_, ?_, ?_⟩
    · simp only [pauseTimer, ht]
      rw [hpc]
    · exact rtGet_rtSet_self e.runtimes ⟨id, 0, none, none⟩
    · exact idDelete_not_mem e.intervals id
    · intro q
      have hrt : rtGet (rtSet e.runtimes ⟨id, 0, none, none⟩) id =
          some ⟨id, 0, none, none⟩ := rtGet_rtSet_self e.runtimes ⟨id, 0, none, none⟩
      simp [getComputedTimer, hmg, hrt, computeTimer]
  constructor
  · exact main
  · intro c b t0 n ht hrt h0 hnow hn hnb
    obtain ⟨e', cur, hcur, hok, hmg, hrtres, _, _⟩ := main (.countdown c) ht
    have hcureq : cur = .countdown { c with remainingSeconds := b - n } := by
      have h1 : some cur = getComputedTimer e now id := hcur.symm
      rw [getComputedTimer, ht, hrt] at h1
      simp only [Option.map_some'] at h1
      have h2 : computeTimer (.countdown c) (some ⟨id, t0, some b, none⟩) now =
          .countdown { c with remainingSeconds := b - n } := by
        have helapsed : (now - t0).fdiv 1000 = n := by
          rw [hnow]
          have : t0 + 1000 * n - t0 = 1000 * n := by ring
          rw [this, Int.mul_fdiv_cancel_left n (by norm_num)]
        simp [computeTimer, h0, helapsed]
        omega
      rw [h2] at h1
      exact Option.some.inj h1
    refine ⟨e', _, hok, ?_, hrtres⟩
    rw [hcureq] at hmg
    simpa [TimerState.withRunning] using hmg

/-- Witness for C6: pausing `sampleEngine`'s timer (base 8, started at
time 1000) at time 7000 = 1000 + 6·1000 stores 8 - 6 = 2 seconds
remaining and clears the runtime record. -/
theorem pauseTimer_spec_witness :
    ∃ e' fx, pauseTimer sampleEngine 7000 1 = .ok (e', fx)
      ∧ mapGet e'.timers 1 = some (.countdown { sampleCd with
          isRunning := false
          remainingSeconds := (2 : Int) })
      ∧ rtGet e'.runtimes 1 = some ⟨1, 0, none, none⟩ := by
  have h := (pauseTimer_spec sampleEngine 7000 1).2 sampleCd 8 1000 6
    rfl rfl (by decide) (by decide) (by decide) (by decide)
  exact h

/-! ## C7 — resetCountdownTimer on a running timer -/

/-- C7 (code bug, evaluated at the failing input): resetting the running
countdown timer of `sampleEngine` at time 7000 does pause it (interval
cancelled, runtime record deleted, marker cleared) and resets
`remainingSeconds` to the total of 10 — but the stored timer is the
pre-pause snapshot spread, so its `isRunning` flag is still `true` even
though no runtime record and no tick schedule exist, leaving an
inconsistent observable state (the engine's own convention is that a
timer without an active runtime record is paused). -/
theorem resetCountdownTimer_leaves_running_flag :
    (match resetCountdownTimer sampleEngine 7000 1 with
      | .ok p => mapGet p.1.timers 1
      | .error _ => none) = some (.countdown { sampleCd with remainingSeconds := 10 })
    ∧ (match resetCountdownTimer sampleEngine 7000 1 with
      | .ok p => rtGet p.1.runtimes 1
      | .error _ => some ⟨1, 1, none, none⟩) = none
    ∧ (match resetCountdownTimer sampleEngine 7000 1 with
      | .ok p => decide ((1 : Int) ∈ p.1.intervals)
      | .error _ => true) = false
    ∧ (match resetCountdownTimer sampleEngine 7000 1 with
      | .ok p => decide ((1 : Int) ∈ p.1.finishedTimers)
      | .error _ => true) = false
    ∧ { sampleCd with remainingSeconds := (10 : Int) }.isRunning = true := by
  decide

/-! ## C8 — acknowledgeTimer and stopAlert -/

/-- C8 counterexample: `acknowledgeTimer` and `stopAlert` do not fail on an
unfinished countdown timer — both succeed and set `isAcknowledged = true`
on the unfinished `sampleCdPaused` (and the repository's own tests
acknowledge unfinished timers and expect success), contradicting the
claim that calling either on an unfinished timer fails. -/
theorem acknowledge_unfinished_counterexample :
    sampleCdPaused.isFinished = false
    ∧ (match acknowledgeTimer samplePausedEngine 4 with
        | .ok p => mapGet p.1.timers 4
        | .error _ => none) =
        some (.countdown { sampleCdPaused with isAcknowledged := true })
    ∧ (match stopAlert samplePausedEngine 4 with
        | .ok p => mapGet p.1.timers 4
        | .error _ => none) =
        some (.countdown { sampleCdPaused with isAcknowledged := true }) := by
  decide

/-- C8 (amended): `acknowledgeTimer` and `stopAlert` are behaviorally
identical (equal as functions of the engine state).  On every existing
countdown timer — finished or not — each cancels the Alert Dispatcher
before the state mutation is observable (the `cancelAlert` command
precedes the update notification in the emitted effects) and sets
`isAcknowledged = true` while leaving `isRunning`, `isFinished` and
`remainingSeconds` (and every other field) unchanged; each fails with the
`Countdown timer ... not found` error exactly when the id is nonexistent
or denotes a count-up timer. -/
theorem acknowledgeTimer_stopAlert_spec (e : Engine) (id : Int) :
    acknowledgeTimer e id = stopAlert e id
    ∧ (∀ c, mapGet e.timers id = some (.countdown c) →
        acknowledgeTimer e id = .ok
          ({ e with timers := mapSet e.timers id (.countdown { c with isAcknowledged := true }) },
           [Effect.cancelAlert,
            Effect.onTimerUpdated (.countdown { c with isAcknowledged := true })]))
    ∧ (mapGet e.timers id = none →
        acknowledgeTimer e id =
          .error ("Countdown timer with id " ++ toString id ++ " not found"))
    ∧ (∀ c, mapGet e.timers id = some (.countup c) →
        acknowledgeTimer e id =
          .error ("Countdown timer with id " ++ toString id ++ " not found")) := by
  refine ⟨?_, ?_, ?_, ?_⟩
  · unfold acknowledgeTimer stopAlert
    rcases hm : mapGet e.timers id with _ | t
    · rfl
    · rcases t with c | c <;> rfl
  · intro c hm
    simp only [acknowledgeTimer, hm]
  · intro hm
    simp only [acknowledgeTimer, hm]
  · intro c hm
    simp only [acknowledgeTimer, hm]

/-- Witness for C8's amended statement on a finished countdown timer:
acknowledging `sampleCdFin` cancels the alert first and marks it
acknowledged, leaving the other fields untouched. -/
theorem acknowledgeTimer_stopAlert_spec_witness :
    acknowledgeTimer sampleFinEngine 3 = stopAlert sampleFinEngine 3
    ∧ acknowledgeTimer sampleFinEngine 3 = .ok
        ({ sampleFinEngine with
            timers := mapSet sampleFinEngine.timers 3 (.countdown { sampleCdFin with isAcknowledged := true }) },
         [Effect.cancelAlert,
          Effect.onTimerUpdated (.countdown { sampleCdFin with isAcknowledged := true })]) := by
  exact ⟨(acknowledgeTimer_stopAlert_spec sampleFinEngine 3).1,
    (acknowledgeTimer_stopAlert_spec sampleFinEngine 3).2.1 sampleCdFin rfl⟩

/-! ## C10 — deleteTimer cancels the (global) alert -/

/-- C10: for every existing timer id — of either type, whether or not that
timer ever fired an alert — `deleteTimer` invokes the Alert Dispatcher's
`cancelAlert` (its effect list is exactly `[cancelAlert, onTimerDeleted id]`),
and `cancelAlert` is global: run on ANY audio-service state — including one
where the ongoing speech and pending repeat timeouts belong to a different
timer — it leaves no speech and no pending repeats.  Consequently deleting
any timer silences whatever alert is currently playing. -/
theorem deleteTimer_cancels_alert (e : Engine) (id : Int) (t : TimerState)
    (ht : mapGet e.timers id = some t) (a : AudioState) :
    (deleteTimer e id).2 = [Effect.cancelAlert, Effect.onTimerDeleted id]
    ∧ (runAudioEffects a (deleteTimer e id).2).speaking = false
    ∧ (runAudioEffects a (deleteTimer e id).2).repeatTimeouts = []
    ∧ (AudioState.cancelAlert a).speaking = false
    ∧ (AudioState.cancelAlert a).repeatTimeouts = [] := by
  have hfx : (deleteTimer e id).2 = [Effect.cancelAlert, Effect.onTimerDeleted id] := by
    unfold deleteTimer
    rw [ht]
  refine ⟨hfx, ?_, ?_, rfl, rfl⟩
  · rw [hfx]
    rfl
  · rw [hfx]
    rfl

/-- Witness for C10: deleting timer 1 of `sampleEngine` while the audio
service is speaking another timer's alert with a pending repeat timeout
leaves the audio service silent with no pending repeats. -/
theorem deleteTimer_cancels_alert_witness :
    (deleteTimer sampleEngine 1).2 = [Effect.cancelAlert, Effect.onTimerDeleted 1]
    ∧ (runAudioEffects ⟨true, ["other-2"], true⟩ (deleteTimer sampleEngine 1).2).speaking = false
    ∧ (runAudioEffects ⟨true, ["other-2"], true⟩
        (deleteTimer sampleEngine 1).2).repeatTimeouts = [] := by
  have h := deleteTimer_cancels_alert sampleEngine 1 (.countdown sampleCd) rfl
    ⟨true, ["other-2"], true⟩
  exact ⟨h.1, h.2.1, h.2.2.1⟩

/-! ## C9 infrastructure: membership and key lemmas -/

theorem mapGet_mem (ts : List TimerState) (k : Int) (t : TimerState)
    (h : mapGet ts k = some t) : t ∈ ts :=
  List.mem_of_find?_eq_some h

theorem rtGet_mem (rs : List TimerRuntime) (k : Int) (rt : TimerRuntime)
    (h : rtGet rs k = some rt) : rt ∈ rs ∧ rt.timerId = k :=
  ⟨List.mem_of_find?_eq_some h, by simpa using List.find?_some h⟩

theorem mem_mapSet (ts : List TimerState) (k : Int) (v x : TimerState)
    (h : x ∈ mapSet ts k v) : x = v ∨ x ∈ ts := by
  induction ts with
  | nil => simpa [mapSet] using h
  | cons t ts ih =>
    by_cases ht : t.id = k
    · simp only [mapSet, if_pos ht, List.mem_cons] at h
      rcases h with h | h
      · exact Or.inl h
      · exact Or.inr (List.mem_cons_of_mem _ h)
    · simp only [mapSet, if_neg ht, List.mem_cons] at h
      rcases h with h | h
      · exact Or.inr (h ▸ List.mem_cons_self _ _)
      · rcases ih h with h | h
        · exact Or.inl h
        · exact Or.inr (List.mem_cons_of_mem _ h)

theorem self_mem_mapSet (ts : List TimerState) (k : Int) (v : TimerState) :
    v ∈ mapSet ts k v := by
  induction ts with
  | nil => simp [mapSet]
  | cons t ts ih =>
    by_cases ht : t.id = k
    · simp [mapSet, ht]
    · simp only [mapSet, if_neg ht, List.mem_cons]
      exact Or.inr ih

theorem mem_mapSet_of_ne (ts : List TimerState) (k : Int) (v x : TimerState)
    (hx : x ∈ ts) (hne : x.id ≠ k) : x ∈ mapSet ts k v := by
  induction ts with
  | nil => cases hx
  | cons t ts ih =>
    rcases List.mem_cons.mp hx with rfl | hx'
    · rw [mapSet, if_neg hne]
      exact List.mem_cons_self _ _
    · by_cases ht : t.id = k
      · rw [mapSet, if_pos ht]
        exact List.mem_cons_of_mem _ hx'
      · rw [mapSet, if_neg ht]
        exact List.mem_cons_of_mem _ (ih hx')

theorem mapSet_ids (ts : List TimerState) (k : Int) (v : TimerState) (hv : v.id = k) :
    (mapSet ts k v).map TimerState.id =
      (if k ∈ ts.map TimerState.id then ts.map TimerState.id
       else ts.map TimerState.id ++ [k]) := by
  induction ts with
  | nil => simp [mapSet, hv]
  | cons t ts ih =>
    by_cases ht : t.id = k
    · simp [mapSet, ht, hv]
    · simp only [mapSet, if_neg ht, List.map_cons, ih]
      by_cases hk : k ∈ ts.map TimerState.id
      · simp [hk, Ne.symm ht]
      · simp [hk, Ne.symm ht]

theorem mapSet_ids_nodup (ts : List TimerState) (k : Int) (v : TimerState)
    (hv : v.id = k) (hnd : (ts.map TimerState.id).Nodup) :
    ((mapSet ts k v).map TimerState.id).Nodup := by
  rw [mapSet_ids ts k v hv]
  by_cases hk : k ∈ ts.map TimerState.id
  · simpa [hk] using hnd
  · rw [if_neg hk]
    rw [List.nodup_append]
    refine ⟨hnd, by simp, ?_⟩
    intro a ha hb
    rw [List.mem_singleton] at hb
    subst hb
    exact hk ha

theorem mem_mapSet_nodup (ts : List TimerState) (k : Int) (v x : TimerState)
    (hnd : (ts.map TimerState.id).Nodup) (hv : v.id = k) (h : x ∈ mapSet ts k v) :
    x = v ∨ (x ∈ ts ∧ x.id ≠ k) := by
  induction ts with
  | nil => simpa [mapSet] using h
  | cons t ts ih =>
    have hnd' : (ts.map TimerState.id).Nodup := (List.nodup_cons.mp hnd).2
    by_cases ht : t.id = k
    · simp only [mapSet, if_pos ht, List.mem_cons] at h
      rcases h with rfl | hx
      · exact Or.inl rfl
      · right
        refine ⟨List.mem_cons_of_mem _ hx, fun hxk => ?_⟩
        have : t.id ∈ ts.map TimerState.id := by
          rw [ht, ← hxk]
          exact List.mem_map_of_mem TimerState.id hx
        exact (List.nodup_cons.mp hnd).1 this
    · simp only [mapSet, if_neg ht, List.mem_cons] at h
      rcases h with rfl | hx
      · exact Or.inr ⟨List.mem_cons_self _ _, ht⟩
      · rcases ih hnd' hx with h | ⟨h1, h2⟩
        · exact Or.inl h
        · exact Or.inr ⟨List.mem_cons_of_mem _ h1, h2⟩

theorem mem_mapDelete (ts : List TimerState) (k : Int) (x : TimerState)
    (h : x ∈ mapDelete ts k) : x ∈ ts ∧ x.id ≠ k := by
  have := List.of_mem_filter h
  exact ⟨List.mem_of_mem_filter h, by simpa using this⟩

theorem mem_mapDelete_of (ts : List TimerState) (k : Int) (x : TimerState)
    (hx : x ∈ ts) (hne : x.id ≠ k) : x ∈ mapDelete ts k := by
  apply List.mem_filter_of_mem hx
  simpa using hne

theorem mem_rtSet (rs : List TimerRuntime) (v x : TimerRuntime)
    (h : x ∈ rtSet rs v) : x = v ∨ x ∈ rs := by
  induction rs with
  | nil => simpa [rtSet] using h
  | cons r rs ih =>
    by_cases hr : r.timerId = v.timerId
    · simp only [rtSet, if_pos hr, List.mem_cons] at h
      rcases h with h | h
      · exact Or.inl h
      · exact Or.inr (List.mem_cons_of_mem _ h)
    · simp only [rtSet, if_neg hr, List.mem_cons] at h
      rcases h with h | h
      · exact Or.inr (h ▸ List.mem_cons_self _ _)
      · rcases ih h with h | h
        · exact Or.inl h
        · exact Or.inr (List.mem_cons_of_mem _ h)

theorem mem_rtDelete (rs : List TimerRuntime) (k : Int) (x : TimerRuntime)
    (h : x ∈ rtDelete rs k) : x ∈ rs ∧ x.timerId ≠ k := by
  have := List.of_mem_filter h
  exact ⟨List.mem_of_mem_filter h, by simpa using this⟩

theorem rtGet_rtDelete_ne (rs : List TimerRuntime) (k k' : Int) (h : k ≠ k') :
    rtGet (rtDelete rs k) k' = rtGet rs k' := by
  induction rs with
  | nil => rfl
  | cons r rs ih =>
    by_cases hr : r.timerId = k
    · have hstep : rtDelete (r :: rs) k = rtDelete rs k := by
        simp [rtDelete, List.filter_cons, hr]
      rw [hstep, ih, rtGet_cons, if_neg (by rw [hr]; exact h)]
    · have hstep : rtDelete (r :: rs) k = r :: rtDelete rs k := by
        simp [rtDelete, List.filter_cons, hr]
      rw [hstep, rtGet_cons, rtGet_cons, ih]

/-! ## C9: the countdown invariant -/

/-- Bounds required of one observable countdown timer state. -/
def cdBounded (t : TimerState) : Prop :=
  ∀ c : CountdownTimer, t = .countdown c →
    0 ≤ c.remainingSeconds ∧ c.remainingSeconds ≤ c.totalSeconds
    ∧ (c.isFinished = true → c.remainingSeconds = 0)

/-- Inductive invariant on one stored countdown timer, relative to the
runtime table and a clock bound (every `startedAt` stamp is in the past). -/
def cdOk (rs : List TimerRuntime) (clock : Int) (c : CountdownTimer) : Prop :=
  0 ≤ c.remainingSeconds ∧ c.remainingSeconds ≤ c.totalSeconds
  ∧ (c.isFinished = true → c.remainingSeconds = 0
      ∧ ∀ rt, rtGet rs c.id = some rt → rt.startedAt = 0)
  ∧ (∀ rt, rtGet rs c.id = some rt → rt.startedAt ≠ 0 →
      rt.startedAt ≤ clock ∧ c.isFinished = false
      ∧ ∃ b, rt.baseRemainingSeconds = some b ∧ 0 ≤ b ∧ b ≤ c.totalSeconds)

/-- The inductive invariant on a whole engine state: every stored countdown
timer is in bounds with a consistent runtime record, timer ids are unique
and below the id counter, and every runtime record belongs to a stored
timer. -/
structure EngineInv (e : Engine) (clock : Int) : Prop where
  cd : ∀ c, TimerState.countdown c ∈ e.timers → cdOk e.runtimes clock c
  nodup : (e.timers.map TimerState.id).Nodup
  fresh : ∀ t ∈ e.timers, t.id < e.nextId
  rtKeys : ∀ rt ∈ e.runtimes, ∃ t ∈ e.timers, t.id = rt.timerId

theorem cdOk_mono (rs : List TimerRuntime) (clock clock' : Int) (c : CountdownTimer)
    (h : cdOk rs clock c) (hle : clock ≤ clock') : cdOk rs clock' c := by
  obtain ⟨h1, h2, h3, h4⟩ := h
  refine ⟨h1, h2, h3, fun rt hrt hne => ?_⟩
  obtain ⟨ha, hb, hc⟩ := h4 rt hrt hne
  exact ⟨le_trans ha hle, hb, hc⟩

theorem cdOk_congr (rs rs' : List TimerRuntime) (clock : Int) (c : CountdownTimer)
    (h : cdOk rs clock c) (heq : rtGet rs' c.id = rtGet rs c.id) : cdOk rs' clock c := by
  obtain ⟨h1, h2, h3, h4⟩ := h
  refine ⟨h1, h2, fun hf => ⟨(h3 hf).1, fun rt hrt => (h3 hf).2 rt (heq ▸ hrt)⟩,
    fun rt hrt hne => h4 rt (heq ▸ hrt) hne⟩

theorem EngineInv_mono (e : Engine) (clock clock' : Int) (h : EngineInv e clock)
    (hle : clock ≤ clock') : EngineInv e clock' :=
  ⟨fun c hc => cdOk_mono _ _ _ c (h.cd c hc) hle, h.nodup, h.fresh, h.rtKeys⟩

/-- `cdOk` ignores the `isRunning` flag. -/
theorem cdOk_isRunning (rs : List TimerRuntime) (clock : Int) (c : CountdownTimer)
    (b : Bool) (h : cdOk rs clock c) : cdOk rs clock { c with isRunning := b } := h

/-- The projection of a stored countdown timer satisfying the invariant is
bounded: `0 ≤ remaining ≤ total` and finished implies zero. -/
theorem computeTimer_bounds (rs : List TimerRuntime) (clock now : Int)
    (c : CountdownTimer) (hok : cdOk rs clock c) (hle : clock ≤ now) :
    cdBounded (computeTimer (.countdown c) (rtGet rs c.id) now) := by
  intro cc hcc
  obtain ⟨h1, h2, h3, h4⟩ := hok
  rcases hrt : rtGet rs c.id with _ | rt
  · rw [hrt] at hcc
    simp only [computeTimer] at hcc
    obtain rfl := (TimerState.countdown.injEq _ _).mp hcc.symm
    exact ⟨h1, h2, fun hf => (h3 hf).1⟩
  · rw [hrt] at hcc
    by_cases h0 : rt.startedAt = 0
    · simp only [computeTimer, if_pos h0] at hcc
      obtain rfl := (TimerState.countdown.injEq _ _).mp hcc.symm
      exact ⟨h1, h2, fun hf => (h3 hf).1⟩
    · simp only [computeTimer, if_neg h0] at hcc
      obtain rfl := (TimerState.countdown.injEq _ _).mp hcc.symm
      obtain ⟨hclk, hnf, b, hb, hb0, hbt⟩ := h4 rt hrt h0
      have hel : 0 ≤ (now - rt.startedAt).fdiv 1000 := by
        apply Int.fdiv_nonneg _ (by norm_num)
        omega
      refine ⟨le_max_left _ _, ?_, ?_⟩
      · simp only [hb, Option.getD_some]
        have : max 0 (b - (now - rt.startedAt).fdiv 1000) ≤ b := by
          apply max_le _ _
          · exact hb0
          · omega
        omega
      · intro hf
        simp at hf
        rw [hnf] at hf
        cases hf

/-- Invariant preservation for the common mutation shape: one timer entry
replaced at its own key, the runtime table changed only at that key. -/
theorem inv_set_components (e : Engine) (clock now : Int) (hinv : EngineInv e clock)
    (hle : clock ≤ now) (id : Int) (hid : id < e.nextId) (v : TimerState) (hv : v.id = id)
    (rs' : List TimerRuntime)
    (hne : ∀ k, k ≠ id → rtGet rs' k = rtGet e.runtimes k)
    (hmem : ∀ rt ∈ rs', rt ∈ e.runtimes ∨ rt.timerId = id)
    (hcd : ∀ c, v = .countdown c → cdOk rs' now c)
    (e' : Engine) (het : e'.timers = mapSet e.timers id v)
    (her : e'.runtimes = rs') (hen : e'.nextId = e.nextId) :
    EngineInv e' now := by
  refine ⟨?_, ?_, ?_, ?_⟩
  · intro c hc
    rw [het] at hc
    rw [her]
    rcases mem_mapSet_nodup e.timers id v _ hinv.nodup hv hc with h | ⟨hmem', hne'⟩
    · exact hcd c h.symm
    · have h1 := hinv.cd c hmem'
      have h2 : rtGet rs' (TimerState.countdown c).id =
          rtGet e.runtimes (TimerState.countdown c).id := hne _ hne'
      exact cdOk_mono _ _ _ _ (cdOk_congr _ _ _ _ h1 h2) hle
  · rw [het]
    exact mapSet_ids_nodup e.timers id v hv hinv.nodup
  · intro t ht
    rw [het] at ht
    rw [hen]
    rcases mem_mapSet e.timers id v t ht with rfl | h
    · rw [hv]
      exact hid
    · exact hinv.fresh t h
  · intro rt hrt
    rw [her] at hrt
    rw [het]
    rcases hmem rt hrt with h | h
    · obtain ⟨t, htmem, htid⟩ := hinv.rtKeys rt h
      by_cases hik : t.id = id
      · exact ⟨v, self_mem_mapSet _ _ _, by rw [hv, ← hik, htid]⟩
      · exact ⟨t, mem_mapSet_of_ne _ _ _ _ htmem hik, htid⟩
    · exact ⟨v, self_mem_mapSet _ _ _, by rw [hv, h]⟩

/-- Invariant preservation for `deleteTimer`'s shape. -/
theorem inv_delete_components (e : Engine) (clock now : Int) (hinv : EngineInv e clock)
    (hle : clock ≤ now) (id : Int)
    (e' : Engine) (het : e'.timers = mapDelete e.timers id)
    (her : e'.runtimes = rtDelete e.runtimes id) (hen : e'.nextId = e.nextId) :
    EngineInv e' now := by
  refine ⟨?_, ?_, ?_, ?_⟩
  · intro c hc
    rw [het] at hc
    rw [her]
    obtain ⟨hmem, hne⟩ := mem_mapDelete e.timers id _ hc
    have h2 : rtGet (rtDelete e.runtimes id) (TimerState.countdown c).id =
        rtGet e.runtimes (TimerState.countdown c).id :=
      rtGet_rtDelete_ne e.runtimes id _ (fun h => hne h.symm)
    exact cdOk_mono _ _ _ _ (cdOk_congr _ _ _ _ (hinv.cd c hmem) h2) hle
  · rw [het]
    exact hinv.nodup.sublist ((List.filter_sublist _).map TimerState.id)
  · intro t ht
    rw [het] at ht
    rw [hen]
    exact hinv.fresh t (mem_mapDelete e.timers id t ht).1
  · intro rt hrt
    rw [her] at hrt
    rw [het]
    obtain ⟨hmem, hne⟩ := mem_rtDelete e.runtimes id rt hrt
    obtain ⟨t, htmem, htid⟩ := hinv.rtKeys rt hmem
    exact ⟨t, mem_mapDelete_of e.timers id t htmem (htid ▸ hne), htid⟩

/-! ## C9: facts about the reload folds -/

theorem load_fold_mem (l : List TimerState) (acc : List TimerState × Int)
    (x : TimerState) (h : x ∈ (l.foldl loadStep acc).1) :
    (∃ t ∈ l, x = t.withRunning false) ∨ x ∈ acc.1 := by
  induction l generalizing acc with
  | nil => exact Or.inr h
  | cons t l ih =>
    rcases ih (loadStep acc t) h with ⟨u, hu, hx⟩ | hx
    · exact Or.inl ⟨u, List.mem_cons_of_mem _ hu, hx⟩
    · rcases mem_mapSet acc.1 t.id (t.withRunning false) x hx with rfl | hx'
      · exact Or.inl ⟨t, List.mem_cons_self _ _, rfl⟩
      · exact Or.inr hx'

theorem load_fold_nodup (l : List TimerState) (acc : List TimerState × Int)
    (hnd : (acc.1.map TimerState.id).Nodup) :
    (((l.foldl loadStep acc).1).map TimerState.id).Nodup := by
  induction l generalizing acc with
  | nil => exact hnd
  | cons t l ih =>
    exact ih (loadStep acc t) (mapSet_ids_nodup acc.1 t.id _ (withRunning_id t false) hnd)

theorem load_fold_snd_mono (l : List TimerState) (acc : List TimerState × Int) :
    acc.2 ≤ (l.foldl loadStep acc).2 := by
  induction l generalizing acc with
  | nil => exact le_refl _
  | cons t l ih =>
    refine le_trans ?_ (ih (loadStep acc t))
    unfold loadStep
    dsimp only
    by_cases h : t.id ≥ acc.2
    · rw [if_pos h]
      omega
    · rw [if_neg h]

theorem load_fold_bound (l : List TimerState) (acc : List TimerState × Int)
    (hb : ∀ x ∈ acc.1, x.id < acc.2) :
    ∀ x ∈ (l.foldl loadStep acc).1, x.id < (l.foldl loadStep acc).2 := by
  induction l generalizing acc with
  | nil => exact hb
  | cons t l ih =>
    refine ih (loadStep acc t) ?_
    intro x hx
    rcases mem_mapSet acc.1 t.id (t.withRunning false) x hx with rfl | hx'
    · rw [withRunning_id]
      unfold loadStep
      dsimp only
      by_cases h : t.id ≥ acc.2
      · rw [if_pos h]
        omega
      · rw [if_neg h]
        omega
    · have := hb x hx'
      unfold loadStep
      dsimp only
      by_cases h : t.id ≥ acc.2
      · rw [if_pos h]
        omega
      · rw [if_neg h]
        exact this

theorem load_fold_stored_lt (l : List TimerState) (acc : List TimerState × Int) :
    ∀ t ∈ l, t.id < (l.foldl loadStep acc).2 := by
  induction l generalizing acc with
  | nil => intro t ht; cases ht
  | cons u l ih =>
    intro t ht
    rcases List.mem_cons.mp ht with rfl | ht'
    · refine lt_of_lt_of_le ?_ (load_fold_snd_mono l (loadStep acc t))
      unfold loadStep
      dsimp only
      by_cases h : t.id ≥ acc.2
      · rw [if_pos h]
        omega
      · rw [if_neg h]
        omega
    · exact ih (loadStep acc u) t ht'

theorem load_key_preserved (acc : List TimerState × Int) (t : TimerState) (k : Int)
    (h : ∃ x ∈ acc.1, x.id = k) : ∃ x ∈ (loadStep acc t).1, x.id = k := by
  obtain ⟨x, hx, hxk⟩ := h
  by_cases hk : x.id = t.id
  · exact ⟨t.withRunning false, self_mem_mapSet _ _ _, by rw [withRunning_id, ← hk, hxk]⟩
  · exact ⟨x, mem_mapSet_of_ne _ _ _ _ hx hk, hxk⟩

theorem load_fold_key_preserved (l : List TimerState) (acc : List TimerState × Int)
    (k : Int) (h : ∃ x ∈ acc.1, x.id = k) :
    ∃ x ∈ (l.foldl loadStep acc).1, x.id = k := by
  induction l generalizing acc with
  | nil => exact h
  | cons t l ih => exact ih (loadStep acc t) (load_key_preserved acc t k h)

theorem load_fold_keys (l : List TimerState) (acc : List TimerState × Int) :
    ∀ t ∈ l, ∃ x ∈ (l.foldl loadStep acc).1, x.id = t.id := by
  induction l generalizing acc with
  | nil => intro t ht; cases ht
  | cons u l ih =>
    intro t ht
    rcases List.mem_cons.mp ht with rfl | ht'
    · refine load_fold_key_preserved l (loadStep acc t) t.id ?_
      exact ⟨t.withRunning false, self_mem_mapSet _ _ _, withRunning_id t false⟩
    · exact ih (loadStep acc u) t ht'

theorem resumeStep_timers_mem (now : Int) (acc : Engine × List Effect) (t : TimerState)
    (x : TimerState) (h : x ∈ (resumeStep now acc t).1.timers) :
    x = t.withRunning true ∨ x ∈ acc.1.timers := by
  unfold resumeStep at h
  dsimp only at h
  revert h
  repeat' split
  all_goals intro h
  all_goals first
  | exact Or.inr h
  | exact mem_mapSet acc.1.timers t.id (t.withRunning true) x (by simpa [startInterval] using h)

theorem resumeStep_nodup (now : Int) (acc : Engine × List Effect) (t : TimerState)
    (hnd : (acc.1.timers.map TimerState.id).Nodup) :
    ((resumeStep now acc t).1.timers.map TimerState.id).Nodup := by
  unfold resumeStep
  dsimp only
  repeat' split
  all_goals first
  | exact hnd
  | simpa [startInterval] using mapSet_ids_nodup acc.1.timers t.id _ (withRunning_id t true) hnd

theorem resumeStep_nextId (now : Int) (acc : Engine × List Effect) (t : TimerState) :
    (resumeStep now acc t).1.nextId = acc.1.nextId := by
  unfold resumeStep
  dsimp only
  repeat' split
  all_goals simp [startInterval]

theorem resumeStep_key_preserved (now : Int) (acc : Engine × List Effect) (t : TimerState)
    (k : Int) (h : ∃ x ∈ acc.1.timers, x.id = k) :
    ∃ x ∈ (resumeStep now acc t).1.timers, x.id = k := by
  obtain ⟨x, hx, hxk⟩ := h
  have hset : ∃ y ∈ mapSet acc.1.timers t.id (t.withRunning true), y.id = k := by
    by_cases hk : x.id = t.id
    · exact ⟨t.withRunning true, self_mem_mapSet _ _ _, by rw [withRunning_id, ← hk, hxk]⟩
    · exact ⟨x, mem_mapSet_of_ne _ _ _ _ hx hk, hxk⟩
  unfold resumeStep
  dsimp only
  repeat' split
  all_goals first
  | exact ⟨x, hx, hxk⟩
  | simpa [startInterval] using hset

theorem resume_fold_timers_mem (now : Int) (l : List TimerState)
    (acc : Engine × List Effect) (x : TimerState)
    (h : x ∈ (l.foldl (resumeStep now) acc).1.timers) :
    (∃ t ∈ l, x = t.withRunning true) ∨ x ∈ acc.1.timers := by
  induction l generalizing acc with
  | nil => exact Or.inr h
  | cons t l ih =>
    rcases ih (resumeStep now acc t) h with ⟨u, hu, hx⟩ | hx
    · exact Or.inl ⟨u, List.mem_cons_of_mem _ hu, hx⟩
    · rcases resumeStep_timers_mem now acc t x hx with rfl | hx'
      · exact Or.inl ⟨t, List.mem_cons_self _ _, rfl⟩
      · exact Or.inr hx'

theorem resume_fold_nodup (now : Int) (l : List TimerState) (acc : Engine × List Effect)
    (hnd : (acc.1.timers.map TimerState.id).Nodup) :
    ((l.foldl (resumeStep now) acc).1.timers.map TimerState.id).Nodup := by
  induction l generalizing acc with
  | nil => exact hnd
  | cons t l ih => exact ih (resumeStep now acc t) (resumeStep_nodup now acc t hnd)

theorem resume_fold_nextId (now : Int) (l : List TimerState) (acc : Engine × List Effect) :
    (l.foldl (resumeStep now) acc).1.nextId = acc.1.nextId := by
  induction l generalizing acc with
  | nil => rfl
  | cons t l ih => rw [List.foldl_cons, ih, resumeStep_nextId]

theorem resume_fold_key_preserved (now : Int) (l : List TimerState)
    (acc : Engine × List Effect) (k : Int) (h : ∃ x ∈ acc.1.timers, x.id = k) :
    ∃ x ∈ (l.foldl (resumeStep now) acc).1.timers, x.id = k := by
  induction l generalizing acc with
  | nil => exact h
  | cons t l ih => exact ih (resumeStep now acc t) (resumeStep_key_preserved now acc t k h)

theorem reloadEngine_def (stored : List TimerState) (rts : List TimerRuntime)
    (seed now : Int) :
    reloadEngine stored rts seed now =
      stored.foldl (resumeStep now)
        ({ timers := (loadTimers stored seed).1
           runtimes := rts
           intervals := []
           finishedTimers := []
           nextId := (loadTimers stored seed).2 }, []) := rfl

/-- Reloading an engine from its persisted timers and runtime records
preserves the invariant. -/
theorem reload_inv (e : Engine) (clock now seed : Int) (hinv : EngineInv e clock)
    (hle : clock ≤ now) :
    EngineInv (reloadEngine e.timers e.runtimes seed now).1 now := by
  rw [reloadEngine_def]
  have hrts : (e.timers.foldl (resumeStep now)
      ({ timers := (loadTimers e.timers seed).1
         runtimes := e.runtimes
         intervals := []
         finishedTimers := []
         nextId := (loadTimers e.timers seed).2 }, [])).1.runtimes = e.runtimes := by
    rw [resume_foldl_runtimes]
  have hnid : (e.timers.foldl (resumeStep now)
      ({ timers := (loadTimers e.timers seed).1
         runtimes := e.runtimes
         intervals := []
         finishedTimers := []
         nextId := (loadTimers e.timers seed).2 }, [])).1.nextId =
      (loadTimers e.timers seed).2 := by
    rw [resume_fold_nextId]
  refine ⟨?_, ?_, ?_, ?_⟩
  · intro c hc
    rw [hrts]
    have hmem : (∃ t ∈ e.timers, TimerState.countdown c = t.withRunning true)
        ∨ (∃ t ∈ e.timers, TimerState.countdown c = t.withRunning false) := by
      rcases resume_fold_timers_mem now e.timers _ _ hc with h | h
      · exact Or.inl h
      · rcases load_fold_mem e.timers ([], seed) _ h with h' | h'
        · exact Or.inr h'
        · cases h'
    have : ∃ c₀, TimerState.countdown c₀ ∈ e.timers
        ∧ ∃ b, c = { c₀ with isRunning := b } := by
      rcases hmem with ⟨t, htm, heq⟩ | ⟨t, htm, heq⟩ <;>
        rcases t with c₀ | c₀ <;> simp [TimerState.withRunning] at heq
      · exact ⟨c₀, htm, true, by rw [heq]⟩
      · exact ⟨c₀, htm, false, by rw [heq]⟩
    obtain ⟨c₀, hc₀, b, rfl⟩ := this
    exact cdOk_isRunning _ _ _ b (cdOk_mono _ _ _ _ (hinv.cd c₀ hc₀) hle)
  · exact resume_fold_nodup now e.timers _
      (load_fold_nodup e.timers ([], seed) (by simp))
  · intro t ht
    rw [hnid]
    rcases resume_fold_timers_mem now e.timers _ _ ht with ⟨u, hu, rfl⟩ | h
    · rw [withRunning_id]
      exact load_fold_stored_lt e.timers ([], seed) u hu
    · rcases load_fold_mem e.timers ([], seed) _ h with ⟨u, hu, rfl⟩ | h'
      · exact load_fold_bound e.timers ([], seed) (by intro x hx; cases hx) _ h
      · cases h'
  · intro rt hrt
    rw [hrts] at hrt
    obtain ⟨t, htm, htid⟩ := hinv.rtKeys rt hrt
    obtain ⟨y, hy, hyid⟩ := load_fold_keys e.timers ([], seed) t htm
    obtain ⟨x, hx, hxid⟩ := resume_fold_key_preserved now e.timers
      ({ timers := (loadTimers e.timers seed).1
         runtimes := e.runtimes
         intervals := []
         finishedTimers := []
         nextId := (loadTimers e.timers seed).2 }, []) rt.timerId
      ⟨y, hy, by rw [hyid, htid]⟩
    exact ⟨x, hx, hxid⟩

/-- The engine operations of the claim, as trace elements: create, start,
pause, reset, acknowledge, tick, delete, and resume-from-reload. -/
inductive Op where
  | createCountdown : String → Int → Option AlertConfig → Op
  | createCountup : String → Op
  | start : Int → Op
  | pause : Int → Op
  | resetCd : Int → Op
  | resetCu : Int → Op
  | ack : Int → Op
  | stopA : Int → Op
  | tick : Int → Op
  | del : Int → Op
  | reload : Int → Op
  deriving Repr, DecidableEq

/-- Run one operation at wall-clock time `now`, keeping the engine state;
a thrown error leaves the state unchanged (every throw in the engine
happens before any mutation). -/
def applyOp (e : Engine) (now : Int) : Op → Engine
  | .createCountdown label total cfg =>
    match createCountdownTimer e label total cfg with
    | .ok p => p.1
    | .error _ => e
  | .createCountup label => (createCountupTimer e label).1
  | .start id =>
    match startTimer e now id with
    | .ok p => p.1
    | .error _ => e
  | .pause id =>
    match pauseTimer e now id with
    | .ok p => p.1
    | .error _ => e
  | .resetCd id =>
    match resetCountdownTimer e now id with
    | .ok p => p.1
    | .error _ => e
  | .resetCu id =>
    match resetCountupTimer e now id with
    | .ok p => p.1
    | .error _ => e
  | .ack id =>
    match acknowledgeTimer e id with
    | .ok p => p.1
    | .error _ => e
  | .stopA id =>
    match stopAlert e id with
    | .ok p => p.1
    | .error _ => e
  | .tick id => (tickTimer e now id).1
  | .del id => (deleteTimer e id).1
  | .reload seed => (reloadEngine e.timers e.runtimes seed now).1

theorem ack_inv (e : Engine) (clock now : Int) (id : Int)
    (hinv : EngineInv e clock) (hle : clock ≤ now) :
    EngineInv (applyOp e now (.ack id)) now := by
  rcases hm : mapGet e.timers id with _ | t
  · have herr : acknowledgeTimer e id =
        .error ("Countdown timer with id " ++ toString id ++ " not found") := by
      simp [acknowledgeTimer, hm]
    simp only [applyOp, herr]
    exact EngineInv_mono e clock now hinv hle
  · rcases t with c | c
    · have hok : acknowledgeTimer e id = .ok
          ({ e with timers := mapSet e.timers id (.countdown { c with isAcknowledged := true }) },
           [Effect.cancelAlert,
            Effect.onTimerUpdated (.countdown { c with isAcknowledged := true })]) := by
        simp [acknowledgeTimer, hm]
      simp only [applyOp, hok]
      have hcid : c.id = id := by
        have := mapGet_some_id e.timers id _ hm
        simpa [TimerState.id] using this
      refine inv_set_components e clock now hinv hle id ?_ _ (by simp [TimerState.id, hcid])
        e.runtimes (fun k _ => rfl) (fun rt h => Or.inl h) ?_ _ rfl rfl rfl
      · have := hinv.fresh _ (mapGet_mem e.timers id _ hm)
        simpa [TimerState.id, hcid] using this
      · intro c' h
        obtain rfl := (TimerState.countdown.injEq _ _).mp h.symm
        exact cdOk_mono _ _ _ _ (hinv.cd c (mapGet_mem e.timers id _ hm)) hle
    · have herr : acknowledgeTimer e id =
          .error ("Countdown timer with id " ++ toString id ++ " not found") := by
        simp [acknowledgeTimer, hm]
      simp only [applyOp, herr]
      exact EngineInv_mono e clock now hinv hle

theorem stopA_inv (e : Engine) (clock now : Int) (id : Int)
    (hinv : EngineInv e clock) (hle : clock ≤ now) :
    EngineInv (applyOp e now (.stopA id)) now := by
  have hsame : stopAlert e id = acknowledgeTimer e id :=
    (acknowledgeTimer_stopAlert_spec e id).1.symm
  have : applyOp e now (.stopA id) = applyOp e now (.ack id) := by
    simp only [applyOp, hsame]
  rw [this]
  exact ack_inv e clock now id hinv hle

theorem del_inv (e : Engine) (clock now : Int) (id : Int)
    (hinv : EngineInv e clock) (hle : clock ≤ now) :
    EngineInv (applyOp e now (.del id)) now := by
  rcases hm : mapGet e.timers id with _ | t
  · have h0 : deleteTimer e id = (e, []) := by
      simp [deleteTimer, hm]
    simp only [applyOp, h0]
    exact EngineInv_mono e clock now hinv hle
  · have h0 : (deleteTimer e id).1 =
        { (if t.isRunning then { e with intervals := idDelete e.intervals id } else e) with
          timers := mapDelete e.timers id
          finishedTimers := idDelete (if t.isRunning then
            { e with intervals := idDelete e.intervals id } else e).finishedTimers id
          runtimes := rtDelete e.runtimes id } := by
      by_cases hr : t.isRunning <;> simp [deleteTimer, hm, hr]
    simp only [applyOp, h0]
    by_cases hr : t.isRunning
    · simp only [if_pos hr]
      exact inv_delete_components e clock now hinv hle id _ rfl rfl rfl
    · simp only [if_neg hr]
      exact inv_delete_components e clock now hinv hle id _ rfl rfl rfl

theorem createCountdown_inv (e : Engine) (clock now : Int) (label : String)
    (total : Int) (cfg : Option AlertConfig)
    (hinv : EngineInv e clock) (hle : clock ≤ now) :
    EngineInv (applyOp e now (.createCountdown label total cfg)) now := by
  by_cases htot : total ≤ 0
  · have herr : createCountdownTimer e label total cfg =
        .error "Total time must be greater than 0" := by
      simp [createCountdownTimer, htot]
    simp only [applyOp, herr]
    exact EngineInv_mono e clock now hinv hle
  · have hok : createCountdownTimer e label total cfg = .ok
        ({ e with
            nextId := e.nextId + 1
            timers := mapSet e.timers e.nextId (.countdown
              { id := e.nextId
                label := label
                totalSeconds := total
                remainingSeconds := total
                isRunning := false
                isFinished := false
                isAcknowledged := false
                alertConfig := cfg.getD DEFAULT_ALERT_CONFIG }) },
         [Effect.onTimerCreated (.countdown
            { id := e.nextId
              label := label
              totalSeconds := total
              remainingSeconds := total
              isRunning := false
              isFinished := false
              isAcknowledged := false
              alertConfig := cfg.getD DEFAULT_ALERT_CONFIG })]) := by
      simp [createCountdownTimer, htot]
    simp only [applyOp, hok]
    have hfree : rtGet e.runtimes e.nextId = none := by
      rcases hr : rtGet e.runtimes e.nextId with _ | rt
      · rfl
      · obtain ⟨hmem, hkey⟩ := rtGet_mem e.runtimes e.nextId rt hr
        obtain ⟨t, htm, htid⟩ := hinv.rtKeys rt hmem
        have := hinv.fresh t htm
        omega
    refine ⟨?_, ?_, ?_, ?_⟩
    · intro c hc
      rcases mem_mapSet_nodup e.timers e.nextId _ _ hinv.nodup (by simp [TimerState.id]) hc
        with h | ⟨hmem', hne'⟩
      · obtain rfl := (TimerState.countdown.injEq _ _).mp h
        refine ⟨by dsimp only; omega, by dsimp only; omega, ?_, ?_⟩
        · intro hf
          simp at hf
        · intro rt hrt
          dsimp only at hrt
          rw [hfree] at hrt
          cases hrt
      · exact cdOk_mono _ _ _ _ (hinv.cd c hmem') hle
    · exact mapSet_ids_nodup e.timers e.nextId _ (by simp [TimerState.id]) hinv.nodup
    · intro t ht
      rcases mem_mapSet e.timers e.nextId _ t ht with rfl | h
      · show TimerState.id _ < e.nextId + 1
        simp only [TimerState.id]
        omega
      · have := hinv.fresh t h
        show t.id < e.nextId + 1
        omega
    · intro rt hrt
      obtain ⟨t, htm, htid⟩ := hinv.rtKeys rt hrt
      have hne : t.id ≠ e.nextId := by
        have := hinv.fresh t htm
        omega
      exact ⟨t, mem_mapSet_of_ne _ _ _ _ htm hne, htid⟩

theorem createCountup_inv (e : Engine) (clock now : Int) (label : String)
    (hinv : EngineInv e clock) (hle : clock ≤ now) :
    EngineInv (applyOp e now (.createCountup label)) now := by
  have hok : (createCountupTimer e label).1 =
      { e with
          nextId := e.nextId + 1
          timers := mapSet e.timers e.nextId (.countup
            { id := e.nextId
              label := label
              elapsedSeconds := 0
              isRunning := false
              isFinished := false }) } := rfl
  simp only [applyOp, hok]
  refine ⟨?_, ?_, ?_, ?_⟩
  · intro c hc
    rcases mem_mapSet_nodup e.timers e.nextId _ _ hinv.nodup (by simp [TimerState.id]) hc
      with h | ⟨hmem', _⟩
    · cases h
    · exact cdOk_mono _ _ _ _ (hinv.cd c hmem') hle
  · exact mapSet_ids_nodup e.timers e.nextId _ (by simp [TimerState.id]) hinv.nodup
  · intro t ht
    rcases mem_mapSet e.timers e.nextId _ t ht with rfl | h
    · show TimerState.id _ < e.nextId + 1
      simp only [TimerState.id]
      omega
    · have := hinv.fresh t h
      show t.id < e.nextId + 1
      omega
  · intro rt hrt
    obtain ⟨t, htm, htid⟩ := hinv.rtKeys rt hrt
    have hne : t.id ≠ e.nextId := by
      have := hinv.fresh t htm
      omega
    exact ⟨t, mem_mapSet_of_ne _ _ _ _ htm hne, htid⟩

theorem cdOk_of_cleared (rs' : List TimerRuntime) (clock : Int) (c : CountdownTimer)
    (h1 : 0 ≤ c.remainingSeconds) (h2 : c.remainingSeconds ≤ c.totalSeconds)
    (h3 : c.isFinished = true → c.remainingSeconds = 0)
    (hrt : rtGet rs' c.id = some ⟨c.id, 0, none, none⟩ ∨ rtGet rs' c.id = none) :
    cdOk rs' clock c := by
  refine ⟨h1, h2, fun hf => ⟨h3 hf, fun rt h => ?_⟩, fun rt h hne => ?_⟩
  · rcases hrt with hh | hh
    · rw [hh] at h
      obtain rfl := Option.some.inj h
      rfl
    · rw [hh] at h
      cases h
  · rcases hrt with hh | hh
    · rw [hh] at h
      obtain rfl := Option.some.inj h
      exact absurd rfl hne
    · rw [hh] at h
      cases h

theorem cdOk_of_started (rs' : List TimerRuntime) (clock : Int) (c : CountdownTimer)
    (h1 : 0 ≤ c.remainingSeconds) (h2 : c.remainingSeconds ≤ c.totalSeconds)
    (hf : c.isFinished = false) (b : Int) (hb0 : 0 ≤ b) (hbt : b ≤ c.totalSeconds)
    (hrt : rtGet rs' c.id = some ⟨c.id, clock, some b, none⟩) :
    cdOk rs' clock c := by
  refine ⟨h1, h2, fun hfin => absurd hfin (by simp [hf]), fun rt h hne => ?_⟩
  rw [hrt] at h
  obtain rfl := Option.some.inj h
  exact ⟨le_refl clock, hf, b, rfl, hb0, hbt⟩

theorem pauseCore_inv (e : Engine) (clock now : Int) (id : Int) (t : TimerState)
    (hm : mapGet e.timers id = some t) (hinv : EngineInv e clock) (hle : clock ≤ now) :
    EngineInv (pauseTimerCore e now id t).1 now := by
  obtain ⟨cur, hcur, hpc⟩ := pauseTimerCore_spec e now id t hm
  rw [hpc]
  have htid : t.id = id := mapGet_some_id e.timers id t hm
  have hcureq : cur = computeTimer t (rtGet e.runtimes id) now := by
    have hthis : getComputedTimer e now id =
        some (computeTimer t (rtGet e.runtimes id) now) := by
      simp [getComputedTimer, hm]
    exact Option.some.inj (hcur.symm.trans hthis)
  have hcurid : cur.id = id := by
    rw [hcureq, computeTimer_id]
    exact htid
  refine inv_set_components e clock now hinv hle id
    (htid ▸ hinv.fresh t (mapGet_mem e.timers id t hm)) (cur.withRunning false)
    (by rw [withRunning_id]; exact hcurid)
    (rtSet e.runtimes ⟨id, 0, none, none⟩)
    (fun k hk => rtGet_rtSet_ne e.runtimes _ k (fun hh => hk hh.symm))
    (fun rt h => (mem_rtSet e.runtimes _ rt h).elim (fun hv => Or.inr (by rw [hv])) Or.inl)
    ?_ _ rfl rfl rfl
  intro c' hv'
  rcases t with c₀ | c₀
  · have hc₀id : c₀.id = id := by simpa [TimerState.id] using htid
    obtain ⟨cc, hcc, f1, f2, f3, f4, f5, f6, f7⟩ :=
      computeTimer_countdown_shape c₀ (rtGet e.runtimes id) now
    have hb := computeTimer_bounds e.runtimes clock now c₀
      (hinv.cd c₀ (mapGet_mem e.timers id _ hm)) hle
    rw [hc₀id] at hb
    have hbounds := hb cc hcc
    have hcureq2 : cur = .countdown cc := by rw [hcureq, hcc]
    rw [hcureq2] at hv'
    simp only [TimerState.withRunning] at hv'
    obtain rfl := (TimerState.countdown.injEq _ _).mp hv'
    refine cdOk_of_cleared _ now _ hbounds.1 hbounds.2.1 hbounds.2.2 (Or.inl ?_)
    show rtGet (rtSet e.runtimes ⟨id, 0, none, none⟩) cc.id = _
    rw [f1, hc₀id]
    exact rtGet_rtSet_self e.runtimes ⟨id, 0, none, none⟩
  · obtain ⟨cc, hcc, _⟩ := computeTimer_countup_shape c₀ (rtGet e.runtimes id) now
    rw [hcureq, hcc] at hv'
    simp [TimerState.withRunning] at hv'

theorem pause_inv (e : Engine) (clock now : Int) (id : Int)
    (hinv : EngineInv e clock) (hle : clock ≤ now) :
    EngineInv (applyOp e now (.pause id)) now := by
  rcases hm : mapGet e.timers id with _ | t
  · have herr : pauseTimer e now id =
        .error ("Timer with id " ++ toString id ++ " not found") := by
      simp [pauseTimer, hm]
    simp only [applyOp, herr]
    exact EngineInv_mono e clock now hinv hle
  · have hok : pauseTimer e now id = .ok (pauseTimerCore e now id t) := by
      simp [pauseTimer, hm]
    simp only [applyOp, hok]
    exact pauseCore_inv e clock now id t hm hinv hle

theorem pauseTimerCore_nextId (e : Engine) (now id : Int) (t : TimerState) :
    (pauseTimerCore e now id t).1.nextId = e.nextId := by
  simp [pauseTimerCore]

theorem resetCd_inv (e : Engine) (clock now : Int) (id : Int)
    (hinv : EngineInv e clock) (hle : clock ≤ now) :
    EngineInv (applyOp e now (.resetCd id)) now := by
  rcases hm : mapGet e.timers id with _ | t
  · have herr : resetCountdownTimer e now id =
        .error ("Countdown timer with id " ++ toString id ++ " not found") := by
      simp [resetCountdownTimer, hm]
    simp only [applyOp, herr]
    exact EngineInv_mono e clock now hinv hle
  · rcases t with c | c
    · have hcid : c.id = id := by
        have := mapGet_some_id e.timers id _ hm
        simpa [TimerState.id] using this
      have htot : 0 ≤ c.totalSeconds := by
        obtain ⟨h1, h2, _⟩ := hinv.cd c (mapGet_mem e.timers id _ hm)
        omega
      have hcd : ∀ e1 : Engine, ∀ c' : CountdownTimer,
          TimerState.countdown { c with
            remainingSeconds := c.totalSeconds
            isFinished := false
            isAcknowledged := false } = .countdown c' →
          cdOk (rtDelete e1.runtimes id) now c' := by
        intro e1 c' h
        obtain rfl := (TimerState.countdown.injEq _ _).mp h
        refine cdOk_of_cleared _ now _ (by dsimp only; omega) (by dsimp only; omega)
          (by intro hf; simp at hf) (Or.inr ?_)
        show rtGet (rtDelete e1.runtimes id) c.id = none
        rw [hcid]
        exact rtGet_rtDelete_self e1.runtimes id
      by_cases hr : c.isRunning
      · have happ : applyOp e now (.resetCd id) =
            { (pauseTimerCore e now id (.countdown c)).1 with
              timers := mapSet (pauseTimerCore e now id (.countdown c)).1.timers id
                (.countdown { c with
                  remainingSeconds := c.totalSeconds
                  isFinished := false
                  isAcknowledged := false })
              finishedTimers :=
                idDelete (pauseTimerCore e now id (.countdown c)).1.finishedTimers id
              runtimes := rtDelete (pauseTimerCore e now id (.countdown c)).1.runtimes id } := by
          simp [applyOp, resetCountdownTimer, hm, hr]
        rw [happ]
        have hinv1 := pauseCore_inv e clock now id _ hm hinv hle
        refine inv_set_components (pauseTimerCore e now id (.countdown c)).1 now now hinv1
          (le_refl now) id ?_ _ (by simp [TimerState.id, hcid])
          (rtDelete (pauseTimerCore e now id (.countdown c)).1.runtimes id)
          (fun k hk => rtGet_rtDelete_ne _ id k (fun hh => hk hh.symm))
          (fun rt h => Or.inl (mem_rtDelete _ id rt h).1)
          (hcd _) _ rfl rfl rfl
        rw [pauseTimerCore_nextId]
        exact hcid ▸ (by simpa [TimerState.id] using hinv.fresh _ (mapGet_mem e.timers id _ hm))
      · have happ : applyOp e now (.resetCd id) =
            { e with
              timers := mapSet e.timers id
                (.countdown { c with
                  remainingSeconds := c.totalSeconds
                  isFinished := false
                  isAcknowledged := false })
              finishedTimers := idDelete e.finishedTimers id
              runtimes := rtDelete e.runtimes id } := by
          simp [applyOp, resetCountdownTimer, hm, hr]
        rw [happ]
        refine inv_set_components e clock now hinv hle id ?_ _
          (by simp [TimerState.id, hcid]) (rtDelete e.runtimes id)
          (fun k hk => rtGet_rtDelete_ne _ id k (fun hh => hk hh.symm))
          (fun rt h => Or.inl (mem_rtDelete _ id rt h).1)
          (hcd _) _ rfl rfl rfl
        exact hcid ▸ (by simpa [TimerState.id] using hinv.fresh _ (mapGet_mem e.timers id _ hm))
    · have herr : resetCountdownTimer e now id =
          .error ("Countdown timer with id " ++ toString id ++ " not found") := by
        simp [resetCountdownTimer, hm]
      simp only [applyOp, herr]
      exact EngineInv_mono e clock now hinv hle

theorem resetCu_inv (e : Engine) (clock now : Int) (id : Int)
    (hinv : EngineInv e clock) (hle : clock ≤ now) :
    EngineInv (applyOp e now (.resetCu id)) now := by
  rcases hm : mapGet e.timers id with _ | t
  · have herr : resetCountupTimer e now id =
        .error ("Countup timer with id " ++ toString id ++ " not found") := by
      simp [resetCountupTimer, hm]
    simp only [applyOp, herr]
    exact EngineInv_mono e clock now hinv hle
  · rcases t with c | c
    · have herr : resetCountupTimer e now id =
          .error ("Countup timer with id " ++ toString id ++ " not found") := by
        simp [resetCountupTimer, hm]
      simp only [applyOp, herr]
      exact EngineInv_mono e clock now hinv hle
    · have hcid : c.id = id := by
        have := mapGet_some_id e.timers id _ hm
        simpa [TimerState.id] using this
      have hcd : ∀ e1 : Engine, ∀ c' : CountdownTimer,
          TimerState.countup { c with elapsedSeconds := 0 } = .countdown c' →
          cdOk (rtDelete e1.runtimes id) now c' := by
        intro e1 c' h
        simp at h
      by_cases hr : c.isRunning
      · have happ : applyOp e now (.resetCu id) =
            { (pauseTimerCore e now id (.countup c)).1 with
              timers := mapSet (pauseTimerCore e now id (.countup c)).1.timers id
                (.countup { c with elapsedSeconds := 0 })
              runtimes := rtDelete (pauseTimerCore e now id (.countup c)).1.runtimes id } := by
          simp [applyOp, resetCountupTimer, hm, hr]
        rw [happ]
        have hinv1 := pauseCore_inv e clock now id _ hm hinv hle
        refine inv_set_components (pauseTimerCore e now id (.countup c)).1 now now hinv1
          (le_refl now) id ?_ _ (by simp [TimerState.id, hcid])
          (rtDelete (pauseTimerCore e now id (.countup c)).1.runtimes id)
          (fun k hk => rtGet_rtDelete_ne _ id k (fun hh => hk hh.symm))
          (fun rt h => Or.inl (mem_rtDelete _ id rt h).1)
          (hcd _) _ rfl rfl rfl
        rw [pauseTimerCore_nextId]
        exact hcid ▸ (by simpa [TimerState.id] using hinv.fresh _ (mapGet_mem e.timers id _ hm))
      · have happ : applyOp e now (.resetCu id) =
            { e with
              timers := mapSet e.timers id (.countup { c with elapsedSeconds := 0 })
              runtimes := rtDelete e.runtimes id } := by
          simp [applyOp, resetCountupTimer, hm, hr]
        rw [happ]
        refine inv_set_components e clock now hinv hle id ?_ _
          (by simp [TimerState.id, hcid]) (rtDelete e.runtimes id)
          (fun k hk => rtGet_rtDelete_ne _ id k (fun hh => hk hh.symm))
          (fun rt h => Or.inl (mem_rtDelete _ id rt h).1)
          (hcd _) _ rfl rfl rfl
        exact hcid ▸ (by simpa [TimerState.id] using hinv.fresh _ (mapGet_mem e.timers id _ hm))

theorem start_inv (e : Engine) (clock now : Int) (id : Int)
    (hinv : EngineInv e clock) (hle : clock ≤ now) :
    EngineInv (applyOp e now (.start id)) now := by
  rcases hm : mapGet e.timers id with _ | t
  · have herr : startTimer e now id =
        .error ("Timer with id " ++ toString id ++ " not found") := by
      simp [startTimer, hm]
    simp only [applyOp, herr]
    exact EngineInv_mono e clock now hinv hle
  · have htmem := mapGet_mem e.timers id t hm
    have htid : t.id = id := mapGet_some_id e.timers id t hm
    have hfresh : id < e.nextId := htid ▸ hinv.fresh t htmem
    rcases t with c | c
    · have hcid : c.id = id := by simpa [TimerState.id] using htid
      have hcdc := hinv.cd c htmem
      by_cases hf : c.isFinished
      · by_cases ha : c.isAcknowledged
        · have happ : applyOp e now (.start id) =
              startInterval
                { e with
                  timers := mapSet (mapSet e.timers id (.countdown { c with
                      remainingSeconds := c.totalSeconds
                      isFinished := false
                      isAcknowledged := false })) id (.countdown { c with
                      remainingSeconds := c.totalSeconds
                      isFinished := false
                      isAcknowledged := false
                      isRunning := true })
                  finishedTimers := idDelete e.finishedTimers id
                  runtimes := rtSet e.runtimes ⟨id, now, some c.totalSeconds, none⟩ } id := by
            simp [applyOp, startTimer, hm, hf, ha, startInterval]
          rw [happ]
          refine inv_set_components e clock now hinv hle id hfresh
            (.countdown { c with
              remainingSeconds := c.totalSeconds
              isFinished := false
              isAcknowledged := false
              isRunning := true })
            (by simp [TimerState.id, hcid])
            (rtSet e.runtimes ⟨id, now, some c.totalSeconds, none⟩)
            (fun k hk => rtGet_rtSet_ne e.runtimes _ k (fun hh => hk hh.symm))
            (fun rt h => (mem_rtSet e.runtimes _ rt h).elim
              (fun hv => Or.inr (by rw [hv])) Or.inl)
            ?_ _ ?_ rfl rfl
          · intro c' h
            obtain rfl := (TimerState.countdown.injEq _ _).mp h
            obtain ⟨h1, h2, _⟩ := hcdc
            refine cdOk_of_started _ now _ (by dsimp only; omega) (by dsimp only; omega)
              (by dsimp only) c.totalSeconds (by omega) (by dsimp only; omega) ?_
            show rtGet (rtSet e.runtimes ⟨id, now, some c.totalSeconds, none⟩) c.id = _
            rw [hcid]
            exact rtGet_rtSet_self e.runtimes ⟨id, now, some c.totalSeconds, none⟩
          · show mapSet (mapSet e.timers id _) id _ = mapSet e.timers id _
            exact mapSet_mapSet e.timers id _ _ (by simp [TimerState.id, hcid])
        · have happ : applyOp e now (.start id) = e := by
            simp [applyOp, startTimer, hm, hf, ha]
          rw [happ]
          exact EngineInv_mono e clock now hinv hle
      · have happ : applyOp e now (.start id) =
            startInterval
              { e with
                timers := mapSet e.timers id ((TimerState.countdown c).withRunning true)
                runtimes := rtSet e.runtimes ⟨id, now, some c.remainingSeconds, none⟩ } id := by
          simp [applyOp, startTimer, startTimerGeneric, hm, hf, startInterval]
        rw [happ]
        refine inv_set_components e clock now hinv hle id hfresh
          ((TimerState.countdown c).withRunning true)
          (by simp [TimerState.withRunning, TimerState.id, hcid])
          (rtSet e.runtimes ⟨id, now, some c.remainingSeconds, none⟩)
          (fun k hk => rtGet_rtSet_ne e.runtimes _ k (fun hh => hk hh.symm))
          (fun rt h => (mem_rtSet e.runtimes _ rt h).elim
            (fun hv => Or.inr (by rw [hv])) Or.inl)
          ?_ _ rfl rfl rfl
        intro c' h
        simp only [TimerState.withRunning] at h
        obtain rfl := (TimerState.countdown.injEq _ _).mp h
        obtain ⟨h1, h2, _⟩ := hcdc
        refine cdOk_of_started _ now _ (by dsimp only; omega) (by dsimp only; omega)
          (by dsimp only; simp [hf]) c.remainingSeconds (by omega) (by dsimp only; omega) ?_
        show rtGet (rtSet e.runtimes ⟨id, now, some c.remainingSeconds, none⟩) c.id = _
        rw [hcid]
        exact rtGet_rtSet_self e.runtimes ⟨id, now, some c.remainingSeconds, none⟩
    · have hcid : c.id = id := by simpa [TimerState.id] using htid
      have happ : applyOp e now (.start id) =
          startInterval
            { e with
              timers := mapSet e.timers id ((TimerState.countup c).withRunning true)
              runtimes := rtSet e.runtimes ⟨id, now, none, some c.elapsedSeconds⟩ } id := by
        simp [applyOp, startTimer, startTimerGeneric, hm, startInterval]
      rw [happ]
      refine inv_set_components e clock now hinv hle id hfresh
        ((TimerState.countup c).withRunning true)
        (by simp [TimerState.withRunning, TimerState.id, hcid])
        (rtSet e.runtimes ⟨id, now, none, some c.elapsedSeconds⟩)
        (fun k hk => rtGet_rtSet_ne e.runtimes _ k (fun hh => hk hh.symm))
        (fun rt h => (mem_rtSet e.runtimes _ rt h).elim
          (fun hv => Or.inr (by rw [hv])) Or.inl)
        ?_ _ rfl rfl rfl
      intro c' h
      simp [TimerState.withRunning] at h

theorem tick_inv (e : Engine) (clock now : Int) (id : Int)
    (hinv : EngineInv e clock) (hle : clock ≤ now) :
    EngineInv (applyOp e now (.tick id)) now := by
  rcases hg : getComputedTimer e now id with _ | cu
  · have h0 : tickTimer e now id = (e, []) := by
      simp [tickTimer, hg]
    simp only [applyOp, h0]
    exact EngineInv_mono e clock now hinv hle
  · rcases cu with c | c
    · by_cases hc : c.remainingSeconds ≤ 0 ∧ ¬ id ∈ e.finishedTimers
      · have hmg : ∃ t₀, mapGet e.timers id = some t₀ := by
          rcases h : mapGet e.timers id with _ | t₀
          · rw [getComputedTimer, h] at hg
            simp at hg
          · exact ⟨t₀, rfl⟩
        obtain ⟨t₀, ht₀⟩ := hmg
        have hcompeq : computeTimer t₀ (rtGet e.runtimes id) now = .countdown c := by
          have : getComputedTimer e now id =
              some (computeTimer t₀ (rtGet e.runtimes id) now) := by
            simp [getComputedTimer, ht₀]
          exact Option.some.inj (this.symm.trans hg)
        rcases t₀ with c₀ | c₀
        · have hc₀id : c₀.id = id := by
            have := mapGet_some_id e.timers id _ ht₀
            simpa [TimerState.id] using this
          have happ : applyOp e now (.tick id) = (tickTimer e now id).1 := rfl
          rw [happ, tickTimer_fires_full e now id c c₀ ht₀ hg hc.1 hc.2]
          obtain ⟨h1, h2, _⟩ := hinv.cd c₀ (mapGet_mem e.timers id _ ht₀)
          have hfr : id < e.nextId :=
            mapGet_some_id e.timers id _ ht₀ ▸ hinv.fresh _ (mapGet_mem e.timers id _ ht₀)
          refine inv_set_components e clock now hinv hle id hfr
            (.countdown { c₀ with
              isRunning := false
              remainingSeconds := 0
              isFinished := true })
            (by simp [TimerState.id, hc₀id])
            (rtSet e.runtimes ⟨id, 0, none, none⟩)
            (fun k hk => rtGet_rtSet_ne e.runtimes _ k (fun hh => hk hh.symm))
            (fun rt h => (mem_rtSet e.runtimes _ rt h).elim
              (fun hv => Or.inr (by rw [hv])) Or.inl)
            ?_ _ rfl rfl rfl
          intro c' h
          obtain rfl := (TimerState.countdown.injEq _ _).mp h
          refine cdOk_of_cleared _ now _ (by dsimp only; omega) (by dsimp only; omega)
            (fun _ => by dsimp only) (Or.inl ?_)
          show rtGet (rtSet e.runtimes ⟨id, 0, none, none⟩) c₀.id = _
          rw [hc₀id]
          exact rtGet_rtSet_self e.runtimes ⟨id, 0, none, none⟩
        · obtain ⟨cc, hcc, _⟩ := computeTimer_countup_shape c₀ (rtGet e.runtimes id) now
          rw [hcc] at hcompeq
          cases hcompeq
      · have h0 : (tickTimer e now id).1 = e := by
          simp only [tickTimer, hg]
          rw [if_neg hc]
        have happ : applyOp e now (.tick id) = (tickTimer e now id).1 := rfl
        rw [happ, h0]
        exact EngineInv_mono e clock now hinv hle
    · have h0 : (tickTimer e now id).1 = e := by
        simp [tickTimer, hg]
      have happ : applyOp e now (.tick id) = (tickTimer e now id).1 := rfl
      rw [happ, h0]
      exact EngineInv_mono e clock now hinv hle

theorem reload_op_inv (e : Engine) (clock now : Int) (seed : Int)
    (hinv : EngineInv e clock) (hle : clock ≤ now) :
    EngineInv (applyOp e now (.reload seed)) now :=
  reload_inv e clock now seed hinv hle

/-- Every engine operation preserves the invariant. -/
theorem applyOp_inv (e : Engine) (clock now : Int) (op : Op)
    (hinv : EngineInv e clock) (hle : clock ≤ now) :
    EngineInv (applyOp e now op) now := by
  cases op with
  | createCountdown label total cfg => exact createCountdown_inv e clock now label total cfg hinv hle
  | createCountup label => exact createCountup_inv e clock now label hinv hle
  | start id => exact start_inv e clock now id hinv hle
  | pause id => exact pause_inv e clock now id hinv hle
  | resetCd id => exact resetCd_inv e clock now id hinv hle
  | resetCu id => exact resetCu_inv e clock now id hinv hle
  | ack id => exact ack_inv e clock now id hinv hle
  | stopA id => exact stopA_inv e clock now id hinv hle
  | tick id => exact tick_inv e clock now id hinv hle
  | del id => exact del_inv e clock now id hinv hle
  | reload seed => exact reload_op_inv e clock now seed hinv hle

/-- A fresh engine session with an empty store, id counter seeded from the
clock. -/
def Engine.init (seed : Int) : Engine :=
  { timers := []
    runtimes := []
    intervals := []
    finishedTimers := []
    nextId := seed }

/-- Run a trace of timed operations. -/
def runOps (e : Engine) : List (Int × Op) → Engine
  | [] => e
  | (t, op) :: rest => runOps (applyOp e t op) rest

/-- The wall-clock times of a trace never decrease. -/
def timesMono (clock : Int) : List (Int × Op) → Prop
  | [] => True
  | (t, _) :: rest => clock ≤ t ∧ timesMono t rest

/-- The time of the last operation of a trace. -/
def lastClock (clock : Int) : List (Int × Op) → Int
  | [] => clock
  | (t, _) :: rest => lastClock t rest

theorem init_inv (seed clock : Int) : EngineInv (Engine.init seed) clock :=
  ⟨fun _ hc => (by cases hc), by simp [Engine.init], fun _ ht => (by cases ht),
   fun _ hrt => (by cases hrt)⟩

theorem runOps_inv (e : Engine) (clock : Int) (ops : List (Int × Op))
    (hinv : EngineInv e clock) (hm : timesMono clock ops) :
    EngineInv (runOps e ops) (lastClock clock ops) := by
  induction ops generalizing e clock with
  | nil => exact hinv
  | cons p rest ih =>
    obtain ⟨t, op⟩ := p
    obtain ⟨h1, h2⟩ := hm
    exact ih (applyOp e t op) t (applyOp_inv e clock t op hinv h1) h2

/-- Under the invariant, every countdown projection the engine can return
is bounded. -/
theorem getComputedTimer_bounded (e : Engine) (clock now id : Int)
    (hinv : EngineInv e clock) (hle : clock ≤ now) (t : TimerState)
    (hg : getComputedTimer e now id = some t) : cdBounded t := by
  intro c hc
  rcases hm : mapGet e.timers id with _ | t₀
  · rw [getComputedTimer, hm] at hg
    simp at hg
  · have ht : t = computeTimer t₀ (rtGet e.runtimes id) now := by
      have hthis : getComputedTimer e now id =
          some (computeTimer t₀ (rtGet e.runtimes id) now) := by
        simp [getComputedTimer, hm]
      exact Option.some.inj (hg.symm.trans hthis)
    rcases t₀ with c₀ | c₀
    · have hc₀id : c₀.id = id := by
        have := mapGet_some_id e.timers id _ hm
        simpa [TimerState.id] using this
      have hb := computeTimer_bounds e.runtimes clock now c₀
        (hinv.cd c₀ (mapGet_mem e.timers id _ hm)) hle
      rw [hc₀id] at hb
      exact hb c (by rw [← ht, hc])
    · obtain ⟨cc, hcc, _⟩ := computeTimer_countup_shape c₀ (rtGet e.runtimes id) now
      rw [ht, hcc] at hc
      cases hc

/-! ## The effect trace of operations (observer deliveries) -/

/-- Run one operation at wall-clock time `now`, keeping both the engine
state and the effects it emits in call order; a thrown error leaves the
state unchanged and emits nothing. -/
def applyOpFx (e : Engine) (now : Int) : Op → Engine × List Effect
  | .createCountdown label total cfg =>
    match createCountdownTimer e label total cfg with
    | .ok p => p
    | .error _ => (e, [])
  | .createCountup label => createCountupTimer e label
  | .start id =>
    match startTimer e now id with
    | .ok p => p
    | .error _ => (e, [])
  | .pause id =>
    match pauseTimer e now id with
    | .ok p => p
    | .error _ => (e, [])
  | .resetCd id =>
    match resetCountdownTimer e now id with
    | .ok p => p
    | .error _ => (e, [])
  | .resetCu id =>
    match resetCountupTimer e now id with
    | .ok p => p
    | .error _ => (e, [])
  | .ack id =>
    match acknowledgeTimer e id with
    | .ok p => p
    | .error _ => (e, [])
  | .stopA id =>
    match stopAlert e id with
    | .ok p => p
    | .error _ => (e, [])
  | .tick id => tickTimer e now id
  | .del id => deleteTimer e id
  | .reload seed => reloadEngine e.timers e.runtimes seed now

/-- The effect-collecting semantics agrees with the state semantics. -/
theorem applyOpFx_fst (e : Engine) (now : Int) (op : Op) :
    (applyOpFx e now op).1 = applyOp e now op := by
  cases op with
  | createCountdown label total cfg =>
    rcases h : createCountdownTimer e label total cfg with err | p <;>
      simp [applyOpFx, applyOp, h]
  | createCountup label => rfl
  | start id =>
    rcases h : startTimer e now id with err | p <;> simp [applyOpFx, applyOp, h]
  | pause id =>
    rcases h : pauseTimer e now id with err | p <;> simp [applyOpFx, applyOp, h]
  | resetCd id =>
    rcases h : resetCountdownTimer e now id with err | p <;> simp [applyOpFx, applyOp, h]
  | resetCu id =>
    rcases h : resetCountupTimer e now id with err | p <;> simp [applyOpFx, applyOp, h]
  | ack id =>
    rcases h : acknowledgeTimer e id with err | p <;> simp [applyOpFx, applyOp, h]
  | stopA id =>
    rcases h : stopAlert e id with err | p <;> simp [applyOpFx, applyOp, h]
  | tick id => rfl
  | del id => rfl
  | reload seed => rfl

/-- A timer state delivered to observers somewhere in an effect trace,
through an `onTimerCreated` or `onTimerUpdated` notification. -/
def obsPayload (fx : List Effect) (t : TimerState) : Prop :=
  Effect.onTimerCreated t ∈ fx ∨ Effect.onTimerUpdated t ∈ fx

/-- Every countdown payload delivered to observers in the trace is in
bounds. -/
def fxBounded (fx : List Effect) : Prop :=
  ∀ t, obsPayload fx t → cdBounded t

theorem fxBounded_nil : fxBounded [] := by
  intro t h
  rcases h with h | h <;> cases h

theorem fxBounded_append (a b : List Effect) (ha : fxBounded a) (hb : fxBounded b) :
    fxBounded (a ++ b) := by
  intro t h
  rcases h with h | h <;> rcases List.mem_append.mp h with h' | h'
  · exact ha t (Or.inl h')
  · exact hb t (Or.inl h')
  · exact ha t (Or.inr h')
  · exact hb t (Or.inr h')

theorem fxBounded_update (u : TimerState) (h : cdBounded u) :
    fxBounded [Effect.onTimerUpdated u] := by
  intro t ht
  rcases ht with ht | ht
  · simp at ht
  · simp at ht
    subst ht
    exact h

theorem fxBounded_create (u : TimerState) (h : cdBounded u) :
    fxBounded [Effect.onTimerCreated u] := by
  intro t ht
  rcases ht with ht | ht
  · simp at ht
    subst ht
    exact h
  · simp at ht

theorem fxBounded_cancel_update (u : TimerState) (h : cdBounded u) :
    fxBounded [Effect.cancelAlert, Effect.onTimerUpdated u] := by
  intro t ht
  rcases ht with ht | ht
  · simp at ht
  · simp at ht
    subst ht
    exact h

/-- `withRunning` leaves the bounded fields untouched. -/
theorem cdBounded_withRunning (t : TimerState) (b : Bool) (h : cdBounded t) :
    cdBounded (t.withRunning b) := by
  intro c hc
  rcases t with c₀ | c₀
  · simp only [TimerState.withRunning] at hc
    obtain rfl := (TimerState.countdown.injEq _ _).mp hc
    exact h c₀ rfl
  · simp [TimerState.withRunning] at hc

/-- The pause notification carries the frozen projection, which is in
bounds under the invariant. -/
theorem pauseTimerCore_fx_bounded (e : Engine) (clock now id : Int) (t : TimerState)
    (hm : mapGet e.timers id = some t) (hinv : EngineInv e clock) (hle : clock ≤ now) :
    fxBounded (pauseTimerCore e now id t).2 := by
  obtain ⟨cur, hcur, hpc⟩ := pauseTimerCore_spec e now id t hm
  rw [hpc]
  exact fxBounded_update _ (cdBounded_withRunning cur false
    (getComputedTimer_bounded e clock now id hinv hle cur hcur))

/-- The resume-from-reload loop emits only play commands: it never
notifies observers of a timer state. -/
theorem resumeStep_fx_plays (now : Int) (acc : Engine × List Effect) (t : TimerState)
    (h : ∀ u ∈ acc.2, isPlay u = true) :
    ∀ u ∈ (resumeStep now acc t).2, isPlay u = true := by
  unfold resumeStep
  dsimp only
  repeat' split
  all_goals try exact h
  all_goals
    intro u hu
    rcases List.mem_append.mp hu with hu | hu
    · exact h u hu
    · simp at hu
      subst hu
      rfl

theorem resume_foldl_fx_plays (now : Int) (l : List TimerState)
    (acc : Engine × List Effect) (h : ∀ u ∈ acc.2, isPlay u = true) :
    ∀ u ∈ (l.foldl (resumeStep now) acc).2, isPlay u = true := by
  induction l generalizing acc with
  | nil => exact h
  | cons t l ih => exact ih _ (resumeStep_fx_plays now acc t h)

theorem reloadEngine_fx_plays (stored : List TimerState) (rts : List TimerRuntime)
    (seed now : Int) :
    ∀ u ∈ (reloadEngine stored rts seed now).2, isPlay u = true := by
  unfold reloadEngine resumeRunningTimers
  dsimp only
  exact resume_foldl_fx_plays now stored _ (by intro u hu; cases hu)

/-- Under the invariant, every countdown payload an operation delivers to
observers is in bounds. -/
theorem applyOpFx_bounded (e : Engine) (clock now : Int) (op : Op)
    (hinv : EngineInv e clock) (hle : clock ≤ now) :
    fxBounded (applyOpFx e now op).2 := by
  cases op with
  | createCountdown label total cfg =>
    by_cases ht : total ≤ 0
    · have herr : createCountdownTimer e label total cfg =
          .error "Total time must be greater than 0" := by
        simp [createCountdownTimer, ht]
      simp only [applyOpFx, herr]
      exact fxBounded_nil
    · have hfx : (applyOpFx e now (.createCountdown label total cfg)).2 =
          [Effect.onTimerCreated (.countdown
            { id := e.nextId
              label := label
              totalSeconds := total
              remainingSeconds := total
              isRunning := false
              isFinished := false
              isAcknowledged := false
              alertConfig := cfg.getD DEFAULT_ALERT_CONFIG })] := by
        simp [applyOpFx, createCountdownTimer, ht]
      rw [hfx]
      refine fxBounded_create _ ?_
      intro c hc
      obtain rfl := (TimerState.countdown.injEq _ _).mp hc
      refine ⟨by dsimp only; omega, by dsimp only; omega, ?_⟩
      intro hf
      simp at hf
  | createCountup label =>
    have hfx : (applyOpFx e now (.createCountup label)).2 =
        [Effect.onTimerCreated (.countup
          { id := e.nextId
            label := label
            elapsedSeconds := 0
            isRunning := false
            isFinished := false })] := by
      simp [applyOpFx, createCountupTimer]
    rw [hfx]
    refine fxBounded_create _ ?_
    intro c hc
    simp at hc
  | start id =>
    rcases hm : mapGet e.timers id with _ | t
    · have herr : startTimer e now id =
          .error ("Timer with id " ++ toString id ++ " not found") := by
        simp [startTimer, hm]
      simp only [applyOpFx, herr]
      exact fxBounded_nil
    · have htmem := mapGet_mem e.timers id t hm
      rcases t with c | c
      · have hcdc := hinv.cd c htmem
        by_cases hf : c.isFinished
        · by_cases ha : c.isAcknowledged
          · have hfx : (applyOpFx e now (.start id)).2 =
                [Effect.onTimerUpdated (.countdown { c with
                  remainingSeconds := c.totalSeconds
                  isFinished := false
                  isAcknowledged := false
                  isRunning := true })] := by
              simp [applyOpFx, startTimer, hm, hf, ha]
            rw [hfx]
            refine fxBounded_update _ ?_
            intro c' hc'
            obtain rfl := (TimerState.countdown.injEq _ _).mp hc'
            obtain ⟨h1, h2, _⟩ := hcdc
            refine ⟨by dsimp only; omega, by dsimp only; omega, ?_⟩
            intro hff
            simp at hff
          · have hfx : (applyOpFx e now (.start id)).2 = [] := by
              simp [applyOpFx, startTimer, hm, hf, ha]
            rw [hfx]
            exact fxBounded_nil
        · have hfx : (applyOpFx e now (.start id)).2 =
              [Effect.onTimerUpdated ((TimerState.countdown c).withRunning true)] := by
            simp [applyOpFx, startTimer, startTimerGeneric, hm, hf]
          rw [hfx]
          refine fxBounded_update _ (cdBounded_withRunning _ true ?_)
          intro c' hc'
          obtain rfl := (TimerState.countdown.injEq _ _).mp hc'
          obtain ⟨h1, h2, h3, _⟩ := hcdc
          exact ⟨h1, h2, fun hff => (h3 hff).1⟩
      · have hfx : (applyOpFx e now (.start id)).2 =
            [Effect.onTimerUpdated ((TimerState.countup c).withRunning true)] := by
          simp [applyOpFx, startTimer, startTimerGeneric, hm]
        rw [hfx]
        refine fxBounded_update _ ?_
        intro c' hc'
        simp [TimerState.withRunning] at hc'
  | pause id =>
    rcases hm : mapGet e.timers id with _ | t
    · have herr : pauseTimer e now id =
          .error ("Timer with id " ++ toString id ++ " not found") := by
        simp [pauseTimer, hm]
      simp only [applyOpFx, herr]
      exact fxBounded_nil
    · have hok : pauseTimer e now id = .ok (pauseTimerCore e now id t) := by
        simp [pauseTimer, hm]
      simp only [applyOpFx, hok]
      exact pauseTimerCore_fx_bounded e clock now id t hm hinv hle
  | resetCd id =>
    rcases hm : mapGet e.timers id with _ | t
    · have herr : resetCountdownTimer e now id =
          .error ("Countdown timer with id " ++ toString id ++ " not found") := by
        simp [resetCountdownTimer, hm]
      simp only [applyOpFx, herr]
      exact fxBounded_nil
    · rcases t with c | c
      · have hcdc := hinv.cd c (mapGet_mem e.timers id _ hm)
        have hreset : cdBounded (.countdown { c with
            remainingSeconds := c.totalSeconds
            isFinished := false
            isAcknowledged := false }) := by
          intro c' hc'
          obtain rfl := (TimerState.countdown.injEq _ _).mp hc'.symm
          obtain ⟨h1, h2, _⟩ := hcdc
          refine ⟨by dsimp only; omega, by dsimp only; omega, ?_⟩
          intro hff
          simp at hff
        by_cases hr : c.isRunning
        · have hfx : (applyOpFx e now (.resetCd id)).2 =
              (pauseTimerCore e now id (.countdown c)).2 ++
              [Effect.onTimerUpdated (.countdown { c with
                remainingSeconds := c.totalSeconds
                isFinished := false
                isAcknowledged := false })] := by
            simp [applyOpFx, resetCountdownTimer, hm, hr]
          rw [hfx]
          exact fxBounded_append _ _
            (pauseTimerCore_fx_bounded e clock now id _ hm hinv hle)
            (fxBounded_update _ hreset)
        · have hfx : (applyOpFx e now (.resetCd id)).2 =
              [Effect.onTimerUpdated (.countdown { c with
                remainingSeconds := c.totalSeconds
                isFinished := false
                isAcknowledged := false })] := by
            simp [applyOpFx, resetCountdownTimer, hm, hr]
          rw [hfx]
          exact fxBounded_update _ hreset
      · have herr : resetCountdownTimer e now id =
            .error ("Countdown timer with id " ++ toString id ++ " not found") := by
          simp [resetCountdownTimer, hm]
        simp only [applyOpFx, herr]
        exact fxBounded_nil
  | resetCu id =>
    rcases hm : mapGet e.timers id with _ | t
    · have herr : resetCountupTimer e now id =
          .error ("Countup timer with id " ++ toString id ++ " not found") := by
        simp [resetCountupTimer, hm]
      simp only [applyOpFx, herr]
      exact fxBounded_nil
    · rcases t with c | c
      · have herr : resetCountupTimer e now id =
            .error ("Countup timer with id " ++ toString id ++ " not found") := by
          simp [resetCountupTimer, hm]
        simp only [applyOpFx, herr]
        exact fxBounded_nil
      · have hcu : cdBounded (.countup { c with elapsedSeconds := 0 }) := by
          intro c' hc'
          simp at hc'
        by_cases hr : c.isRunning
        · have hfx : (applyOpFx e now (.resetCu id)).2 =
              (pauseTimerCore e now id (.countup c)).2 ++
              [Effect.onTimerUpdated (.countup { c with elapsedSeconds := 0 })] := by
            simp [applyOpFx, resetCountupTimer, hm, hr]
          rw [hfx]
          exact fxBounded_append _ _
            (pauseTimerCore_fx_bounded e clock now id _ hm hinv hle)
            (fxBounded_update _ hcu)
        · have hfx : (applyOpFx e now (.resetCu id)).2 =
              [Effect.onTimerUpdated (.countup { c with elapsedSeconds := 0 })] := by
            simp [applyOpFx, resetCountupTimer, hm, hr]
          rw [hfx]
          exact fxBounded_update _ hcu
  | ack id =>
    rcases hm : mapGet e.timers id with _ | t
    · have herr : acknowledgeTimer e id =
          .error ("Countdown timer with id " ++ toString id ++ " not found") := by
        simp [acknowledgeTimer, hm]
      simp only [applyOpFx, herr]
      exact fxBounded_nil
    · rcases t with c | c
      · have hok : acknowledgeTimer e id = .ok
            ({ e with timers := mapSet e.timers id (.countdown { c with isAcknowledged := true }) },
             [Effect.cancelAlert,
              Effect.onTimerUpdated (.countdown { c with isAcknowledged := true })]) := by
          simp [acknowledgeTimer, hm]
        simp only [applyOpFx, hok]
        refine fxBounded_cancel_update _ ?_
        intro c' hc'
        obtain rfl := (TimerState.countdown.injEq _ _).mp hc'
        obtain ⟨h1, h2, h3, _⟩ := hinv.cd c (mapGet_mem e.timers id _ hm)
        exact ⟨h1, h2, fun hff => (h3 hff).1⟩
      · have herr : acknowledgeTimer e id =
            .error ("Countdown timer with id " ++ toString id ++ " not found") := by
          simp [acknowledgeTimer, hm]
        simp only [applyOpFx, herr]
        exact fxBounded_nil
  | stopA id =>
    rcases hm : mapGet e.timers id with _ | t
    · have herr : stopAlert e id =
          .error ("Countdown timer with id " ++ toString id ++ " not found") := by
        simp [stopAlert, hm]
      simp only [applyOpFx, herr]
      exact fxBounded_nil
    · rcases t with c | c
      · have hok : stopAlert e id = .ok
            ({ e with timers := mapSet e.timers id (.countdown { c with isAcknowledged := true }) },
             [Effect.cancelAlert,
              Effect.onTimerUpdated (.countdown { c with isAcknowledged := true })]) := by
          simp [stopAlert, hm]
        simp only [applyOpFx, hok]
        refine fxBounded_cancel_update _ ?_
        intro c' hc'
        obtain rfl := (TimerState.countdown.injEq _ _).mp hc'
        obtain ⟨h1, h2, h3, _⟩ := hinv.cd c (mapGet_mem e.timers id _ hm)
        exact ⟨h1, h2, fun hff => (h3 hff).1⟩
      · have herr : stopAlert e id =
            .error ("Countdown timer with id " ++ toString id ++ " not found") := by
          simp [stopAlert, hm]
        simp only [applyOpFx, herr]
        exact fxBounded_nil
  | tick id =>
    show fxBounded (tickTimer e now id).2
    rcases hg : getComputedTimer e now id with _ | cu
    · have h0 : tickTimer e now id = (e, []) := by
        simp [tickTimer, hg]
      rw [h0]
      exact fxBounded_nil
    · rcases cu with c | c
      · by_cases hc : c.remainingSeconds ≤ 0 ∧ ¬ id ∈ e.finishedTimers
        · have hmg : ∃ t₀, mapGet e.timers id = some t₀ := by
            rcases h : mapGet e.timers id with _ | t₀
            · rw [getComputedTimer, h] at hg
              simp at hg
            · exact ⟨t₀, rfl⟩
          obtain ⟨t₀, ht₀⟩ := hmg
          rcases t₀ with c₀ | c₀
          · rw [tickTimer_fires_full e now id c c₀ ht₀ hg hc.1 hc.2]
            have hb := getComputedTimer_bounded e clock now id hinv hle _ hg c rfl
            have hcz : c.remainingSeconds = 0 := le_antisymm hc.1 hb.1
            obtain ⟨g1, g2, _⟩ := hinv.cd c₀ (mapGet_mem e.timers id _ ht₀)
            intro u hu
            rcases hu with hu | hu
            · simp at hu
            · simp at hu
              rcases hu with hu | hu
              · subst hu
                intro c' hc'
                obtain rfl := (TimerState.countdown.injEq _ _).mp hc'.symm
                refine ⟨by dsimp only; omega, by dsimp only; omega, ?_⟩
                intro hff
                dsimp only
                omega
              · subst hu
                intro c' hc'
                obtain rfl := (TimerState.countdown.injEq _ _).mp hc'.symm
                refine ⟨by dsimp only; omega, by dsimp only; omega, ?_⟩
                intro hff
                dsimp only
          · have hcompeq : computeTimer (.countup c₀) (rtGet e.runtimes id) now
                = .countdown c := by
              have hthis : getComputedTimer e now id =
                  some (computeTimer (.countup c₀) (rtGet e.runtimes id) now) := by
                simp [getComputedTimer, ht₀]
              exact Option.some.inj (hthis.symm.trans hg)
            obtain ⟨cc, hcc, _⟩ := computeTimer_countup_shape c₀ (rtGet e.runtimes id) now
            rw [hcc] at hcompeq
            cases hcompeq
        · have h0 : tickTimer e now id = (e, [Effect.onTimerUpdated (.countdown c)]) := by
            simp only [tickTimer, hg]
            rw [if_neg hc]
          rw [h0]
          exact fxBounded_update _ (getComputedTimer_bounded e clock now id hinv hle _ hg)
      · have h0 : tickTimer e now id = (e, [Effect.onTimerUpdated (.countup c)]) := by
          simp [tickTimer, hg]
        rw [h0]
        refine fxBounded_update _ ?_
        intro c' hc'
        simp at hc'
  | del id =>
    show fxBounded (deleteTimer e id).2
    rcases hm : mapGet e.timers id with _ | t
    · have h0 : deleteTimer e id = (e, []) := by
        simp [deleteTimer, hm]
      rw [h0]
      exact fxBounded_nil
    · have hfx : (deleteTimer e id).2 = [Effect.cancelAlert, Effect.onTimerDeleted id] := by
        simp [deleteTimer, hm]
      rw [hfx]
      intro u hu
      rcases hu with hu | hu <;> simp at hu
  | reload seed =>
    show fxBounded (reloadEngine e.timers e.runtimes seed now).2
    intro u hu
    have hp := reloadEngine_fx_plays e.timers e.runtimes seed now
    rcases hu with hu | hu
    · have := hp _ hu
      simp [isPlay] at this
    · have := hp _ hu
      simp [isPlay] at this

/-- Run a trace of timed operations, collecting every emitted effect in
order. -/
def runOpsFx (e : Engine) : List (Int × Op) → Engine × List Effect
  | [] => (e, [])
  | (t, op) :: rest =>
    let p := applyOpFx e t op
    let q := runOpsFx p.1 rest
    (q.1, p.2 ++ q.2)

theorem runOpsFx_fst (e : Engine) (ops : List (Int × Op)) :
    (runOpsFx e ops).1 = runOps e ops := by
  induction ops generalizing e with
  | nil => rfl
  | cons p rest ih =>
    obtain ⟨t, op⟩ := p
    show (runOpsFx (applyOpFx e t op).1 rest).1 = runOps (applyOp e t op) rest
    rw [applyOpFx_fst, ih]

/-- Over a whole time-monotone trace, every countdown payload delivered to
observers is in bounds. -/
theorem runOpsFx_bounded (e : Engine) (clock : Int) (ops : List (Int × Op))
    (hinv : EngineInv e clock) (hm : timesMono clock ops) :
    fxBounded (runOpsFx e ops).2 := by
  induction ops generalizing e clock with
  | nil => exact fxBounded_nil
  | cons p rest ih =>
    obtain ⟨t, op⟩ := p
    obtain ⟨h1, h2⟩ := hm
    have hinv' : EngineInv (applyOpFx e t op).1 t := by
      rw [applyOpFx_fst]
      exact applyOp_inv e clock t op hinv h1
    show fxBounded ((applyOpFx e t op).2 ++ (runOpsFx (applyOpFx e t op).1 rest).2)
    exact fxBounded_append _ _ (applyOpFx_bounded e clock t op hinv h1)
      (ih (applyOpFx e t op).1 t hinv' h2)

/-! ## C9 — the countdown invariant over every reachable state -/

/-- C9: over any trace of engine operations (create, start, pause, reset,
acknowledge, tick, delete, resume-from-reload) from a fresh session, run
at nondecreasing wall-clock times, every countdown timer state observable
through `getTimer` or `getAllTimers` at any time at or after the last
operation, and every countdown timer state delivered to observers through
an `onTimerCreated` or `onTimerUpdated` notification anywhere in the
trace, satisfies `0 ≤ remainingSeconds ≤ totalSeconds`, and `isFinished`
implies `remainingSeconds = 0`. -/
theorem countdown_invariant_preserved (seed clock0 q : Int) (ops : List (Int × Op))
    (hm : timesMono clock0 ops) (hq : lastClock clock0 ops ≤ q) :
    (∀ id c, getTimer (runOps (Engine.init seed) ops) q id = some (.countdown c) →
      0 ≤ c.remainingSeconds ∧ c.remainingSeconds ≤ c.totalSeconds
      ∧ (c.isFinished = true → c.remainingSeconds = 0))
    ∧ (∀ c, TimerState.countdown c ∈ getAllTimers (runOps (Engine.init seed) ops) q →
      0 ≤ c.remainingSeconds ∧ c.remainingSeconds ≤ c.totalSeconds
      ∧ (c.isFinished = true → c.remainingSeconds = 0))
    ∧ (∀ c, obsPayload (runOpsFx (Engine.init seed) ops).2 (.countdown c) →
      0 ≤ c.remainingSeconds ∧ c.remainingSeconds ≤ c.totalSeconds
      ∧ (c.isFinished = true → c.remainingSeconds = 0)) := by
  have hinv := runOps_inv (Engine.init seed) clock0 ops (init_inv seed clock0) hm
  refine ⟨?_, ?_, ?_⟩
  · intro id c hg
    exact getComputedTimer_bounded _ _ q id hinv hq _ hg c rfl
  · intro c hmem
    rw [getAllTimers] at hmem
    obtain ⟨t, _, hg⟩ := List.mem_filterMap.mp hmem
    exact getComputedTimer_bounded _ _ q t.id hinv hq _ hg c rfl
  · intro c hobs
    exact runOpsFx_bounded (Engine.init seed) clock0 ops (init_inv seed clock0) hm
      (.countdown c) hobs c rfl

/-- The countdown timer state reached in the C9 witness trace: created
with 5 seconds, started, and finished by a tick 8 seconds later. -/
def wFinal : CountdownTimer :=
  { id := 1
    label := "w"
    totalSeconds := 5
    remainingSeconds := 0
    isRunning := false
    isFinished := true
    isAcknowledged := false
    alertConfig := DEFAULT_ALERT_CONFIG }

/-- Witness for C9 on a concrete trace: create a 5-second countdown at
time 100, start it at time 1000, tick it at time 9000 (it finishes).
Observing it at time 9000 yields `wFinal`, the finishing tick delivered
`wFinal` to observers, and the observed state is in bounds. -/
theorem countdown_invariant_preserved_witness :
    getTimer (runOps (Engine.init 1)
        [(100, .createCountdown "w" 5 none), (1000, .start 1), (9000, .tick 1)]) 9000 1 =
      some (.countdown wFinal)
    ∧ obsPayload (runOpsFx (Engine.init 1)
        [(100, .createCountdown "w" 5 none), (1000, .start 1), (9000, .tick 1)]).2
        (.countdown wFinal)
    ∧ (0 ≤ wFinal.remainingSeconds ∧ wFinal.remainingSeconds ≤ wFinal.totalSeconds
       ∧ (wFinal.isFinished = true → wFinal.remainingSeconds = 0)) := by
  refine ⟨by decide, Or.inr (by decide), ?_⟩
  exact (countdown_invariant_preserved 1 0 9000
      [(100, .createCountdown "w" 5 none), (1000, .start 1), (9000, .tick 1)]
      ⟨by decide, by decide, by decide, trivial⟩ (by decide)).2.2 wFinal
    (Or.inr (by decide))

end ParticularParrot
